import Mathlib

/-!
# Forward proxy (`go_proxy/proxy/proxy.go`)

A shallow embedding of the proxy engine: the dispatcher `ServeHTTP`, the HTTP
forwarder `handleHTTP`, the tunnel handler `handleHTTPS` with its relay pumps
`exchangeData`, the metadata extractor `parseRequest` / `parseResponse` and
the persistence sink `saveRequestResponse`.

Conventions of the embedding.

* Go maps are finite association lists with unique keys (`AList`); a `range`
  loop over a map folds over the entries in the order of the list, so a
  statement proved for every map covers every iteration order.
* The standard library functions whose exact behaviour the program does not
  fix (`textproto.CanonicalMIMEHeaderKey`, `url.ParseQuery`,
  `mime.ParseMediaType`, the cookie reader behind `Request.Cookies`) are the
  fields of a record `Lib`; `stdlib` is a small reference instance used to
  evaluate examples.
* Whatever the outside world decides (the origin's answer to
  `httpClient.Do`, the results of `Begin` / `Exec` / `Commit`, of the dial
  and of `Hijack`) is the content of a record `Env`.
* Effects are explicit: a `State` holds the storage, the response writer of
  the current request, the two sockets of a tunnel, the spawned goroutines
  and a trace of the calls made so far.  A handler returns how it ended
  (`Ending`) and the state it left.
* The two goroutines of a tunnel run as interleaved steps along a schedule
  (`runPumps`); a statement proved for every schedule covers every
  interleaving of the two `io.Copy` loops.
-/

namespace Proxy

/-! ## Maps, headers and the library boundary -/

/-- Go `map[string][]string`, the type behind `url.Values` and `http.Header`. -/
abbrev Values := AList (fun _ : String => List String)

/-- Go `map[string]string`. -/
abbrev StringMap := AList (fun _ : String => String)

/-- Go `http.Header`. -/
abbrev Header := Values

/-- Standard library functions used by the proxy, kept as parameters. -/
structure Lib where
  /-- Models `textproto.CanonicalMIMEHeaderKey`. -/
  canonicalMIMEHeaderKey : String → String
  /-- Models `url.ParseQuery`; the values parsed (the error is dropped by every caller). -/
  parseQuery : String → Values
  /-- Models `mime.ParseMediaType`: the media type, the empty string on error. -/
  parseMediaType : String → String
  /-- Models `readCookies`: the cookies of the `Cookie` header lines, in order. -/
  readCookies : Header → List (String × String)

/-- Go `Header.Add`: `h[key] = append(h[key], value)` on the canonical key. -/
def Header.Add (lib : Lib) (h : Header) (key value : String) : Header :=
  let k := lib.canonicalMIMEHeaderKey key
  h.insert k ((h.lookup k).getD [] ++ [value])

/-- Go `Header.Del`: `delete(h, key)` on the canonical key. -/
def Header.Del (lib : Lib) (h : Header) (key : String) : Header :=
  h.erase (lib.canonicalMIMEHeaderKey key)

/-- Go `Header.Get`: the first value of the canonical key, or the empty string. -/
def Header.Get (lib : Lib) (h : Header) (key : String) : String :=
  match h.lookup (lib.canonicalMIMEHeaderKey key) with
  | some (v :: _) => v
  | _ => ""

/-- Go indexing `h[key]`: the value list of a key, `nil` when the key is absent. -/
def Values.get (m : Values) (key : String) : List String :=
  (m.lookup key).getD []

/-! ## Requests and responses -/

/-- A request body: a stream that is read once. -/
structure Body where
  /-- The bytes not yet read. -/
  unread : String
  /-- Whether `Close` has been called. -/
  closed : Bool
  deriving DecidableEq

/-- Go `io.ReadAll` on a body: everything unread, or an error once closed. -/
def Body.readAll (b : Body) : Except String String × Body :=
  if b.closed then (.error "http: invalid Read on closed Body", b)
  else (.ok b.unread, { b with unread := "" })

/-- What the transport does to the body of a request it sends: read it to the
end and close it. -/
def Body.sendAndClose (_ : Body) : Body :=
  { unread := "", closed := true }

/-- The fields of `url.URL` the proxy reads. -/
structure URL where
  Path : String
  RawQuery : String
  deriving DecidableEq

/-- Go `URL.Query`: `ParseQuery(u.RawQuery)` with the error dropped. -/
def URL.Query (lib : Lib) (u : URL) : Values :=
  lib.parseQuery u.RawQuery

/-- The fields of `http.Request` the proxy reads or writes. -/
structure Request where
  Method : String
  URL : URL
  Header : Header
  Body : Body
  Host : String
  RequestURI : String
  /-- The parsed form of the body; `none` is Go `nil` (not parsed yet). -/
  PostForm : Option Values

/-- The fields of `http.Response` the proxy reads. -/
structure Response where
  StatusCode : Int
  Status : String
  Header : Header
  Body : String

/-- The limit `parsePostForm` puts on a form body: 10 MB. -/
def maxFormSize : Nat := 10 * 2 ^ 20

/-- Go `parsePostForm` for a request with a body: the values of a
form-encoded body, `none` (Go `nil`) when the body is of another type, cannot
be read or is too large. -/
def parsePostForm (lib : Lib) (r : Request) : Option Values × Body :=
  let ct := Header.Get lib r.Header "Content-Type"
  let ct := if ct = "" then "application/octet-stream" else ct
  let ct := lib.parseMediaType ct
  if ct = "application/x-www-form-urlencoded" then
    match r.Body.readAll with
    | (.error _, b) => (none, b)
    | (.ok data, b) =>
      if data.utf8ByteSize > maxFormSize then (none, b)
      else (some (lib.parseQuery data), b)
  else (none, r.Body)

/-- Go `Request.ParseForm`, as far as `PostForm` goes: parse the body of a
POST, PUT or PATCH request once; `PostForm` is never `nil` afterwards. -/
def Request.ParseForm (lib : Lib) (r : Request) : Request :=
  match r.PostForm with
  | some _ => r
  | none =>
    if r.Method = "POST" ∨ r.Method = "PUT" ∨ r.Method = "PATCH" then
      match parsePostForm lib r with
      | (vs, b) => { r with PostForm := some (vs.getD ∅), Body := b }
    else { r with PostForm := some ∅ }

/-- Go `Request.Cookies`. -/
def Request.Cookies (lib : Lib) (r : Request) : List (String × String) :=
  lib.readCookies r.Header

/-! ## The metadata extractor -/

/-- The message of the run-time panic of `values[0]` on an empty slice. -/
def indexOutOfRange : String := "index out of range [0] with length 0"

/-- The loop body `out[key] = values[0]` run over the entries of a map, in
order; `values[0]` on an empty slice panics. -/
def firstValuesLoop : List (Sigma fun _ : String => List String) → StringMap →
    Except String StringMap
  | [], out => .ok out
  | ⟨_, []⟩ :: _, _ => .error indexOutOfRange
  | ⟨key, v :: _⟩ :: rest, out => firstValuesLoop rest (out.insert key v)

/-- The loop `for key, values := range m { out[key] = values[0] }` of
`parseRequest` and `parseResponse`, started on an empty map. -/
def firstValues (m : Values) : Except String StringMap :=
  firstValuesLoop m.entries ∅

/-- The loop `for _, cookie := range r.Cookies() { cookies[cookie.Name] = cookie.Value }`. -/
def cookieMap (cs : List (String × String)) : StringMap :=
  cs.foldl (fun out c => out.insert c.1 c.2) ∅

/-- The loop `for key, values := range r.PostForm { postParams[key] = values }`. -/
def copyValues (m : Values) : Values :=
  m.entries.foldl (fun out e => out.insert e.1 e.2) ∅

/-- The anonymous struct `requestInfo` of `parseRequest`; its JSON keys are
`method`, `path`, `get_params`, `headers`, `cookies`, `post_params`. -/
structure RequestInfo where
  Method : String
  Path : String
  GetParams : StringMap
  Headers : StringMap
  Cookies : StringMap
  PostParams : Values

/-- The anonymous struct `responseInfo` of `parseResponse`; its JSON keys are
`code`, `message`, `headers`. -/
structure ResponseInfo where
  Code : Int
  Message : String
  Headers : StringMap

/-- A serialized snapshot, the text of a storage column: the empty string, or
the JSON object that encodes a record (identified with that record). -/
inductive Text where
  | empty
  | request (info : RequestInfo)
  | response (info : ResponseInfo)

/-- Go `json.Marshal` on a `requestInfo`: strings and maps of strings always encode. -/
def jsonMarshalRequest (info : RequestInfo) : Except String Text :=
  .ok (.request info)

/-- Go `json.Marshal` on a `responseInfo`. -/
def jsonMarshalResponse (info : ResponseInfo) : Except String Text :=
  .ok (.response info)

/-- The record `parseRequest` builds before it serializes it; an error is the
panic of an index out of range. -/
def requestInfo (lib : Lib) (r : Request) : Except String RequestInfo :=
  match firstValues (r.URL.Query lib) with
  | .error msg => .error msg
  | .ok getParams =>
    match firstValues r.Header with
    | .error msg => .error msg
    | .ok headers =>
      let cookies := cookieMap (r.Cookies lib)
      let r := r.ParseForm lib
      let postParams := copyValues (r.PostForm.getD ∅)
      .ok { Method := r.Method, Path := r.URL.Path, GetParams := getParams,
            Headers := headers, Cookies := cookies, PostParams := postParams }

/-- The record `parseResponse` builds before it serializes it. -/
def responseInfo (resp : Response) : Except String ResponseInfo :=
  match firstValues resp.Header with
  | .error msg => .error msg
  | .ok headers =>
    .ok { Code := resp.StatusCode, Message := resp.Status, Headers := headers }

/-! ## State, environment and effects -/

/-- The functions of the proxy whose calls the trace records. -/
inductive Fn where
  | handleHTTP
  | handleHTTPS
  | saveRequestResponse
  | parseRequest
  | parseResponse
  | copyHeaders
  | connectHandshake
  | exchangeData
  deriving DecidableEq

/-- An effect recorded in the trace. -/
inductive Event where
  /-- A call of one of the proxy functions. -/
  | call (fn : Fn)
  /-- A call `p.db.Begin()`. -/
  | dbBegin
  /-- A call `tx.Exec` of the `INSERT` statement. -/
  | dbExec
  /-- A call `tx.Commit()`. -/
  | dbCommit
  /-- A call `tx.Rollback()`. -/
  | dbRollback
  /-- A call `net.DialTimeout("tcp", host, 10s)`. -/
  | dial (host : String)
  /-- A call `hijacker.Hijack()`. -/
  | hijack
  /-- A call `w.WriteHeader(code)`. -/
  | writeHeader (code : Int)
  /-- A line written by `log.Println`. -/
  | log (msg : String)
  /-- A call `log.Fatalf`, which ends the process with `os.Exit(1)`. -/
  | fatal (msg : String)
  /-- The deferred `proxyResponse.Body.Close()`. -/
  | closeResponseBody
  deriving DecidableEq

/-- The events by which a handler of `ServeHTTP` starts. -/
def Event.isHandlerCall : Event → Bool
  | .call .handleHTTP => true
  | .call .handleHTTPS => true
  | _ => false

/-- The status code of a `WriteHeader` call. -/
def Event.writeHeaderCode : Event → Option Int
  | .writeHeader code => some code
  | _ => none

/-- The events of the metadata extractor and of the persistence sink. -/
def Event.isCapture : Event → Bool
  | .call .saveRequestResponse => true
  | .call .parseRequest => true
  | .call .parseResponse => true
  | .dbBegin => true
  | .dbExec => true
  | .dbCommit => true
  | .dbRollback => true
  | _ => false

/-- How a handler ends: it returns, it panics (the HTTP server recovers a
panic of a handler), or it ends the whole process. -/
inductive Ending where
  | returned
  | panicked (msg : String)
  | exited (code : Nat)
  deriving DecidableEq

/-- The `http.ResponseWriter` of the current request: the first `WriteHeader`
call with a final status code fixes the status the client receives. -/
structure ResponseWriter where
  /-- The header map returned by `w.Header()`. -/
  header : Header
  /-- The status delivered to the client, once fixed. -/
  status : Option Int
  /-- The body bytes written so far. -/
  body : String
  /-- Whether the writer implements `http.Hijacker`. -/
  isHijacker : Bool
  /-- Whether the connection has been taken over by `Hijack`. -/
  hijacked : Bool

/-- A TCP connection. -/
structure Conn where
  closed : Bool
  /-- The bytes written to the connection. -/
  received : String
  deriving DecidableEq

/-- The two connections of a tunnel: the client socket and the dialled one. -/
inductive ConnId where
  | connSrc
  | connDest
  deriving DecidableEq

/-- A goroutine running `exchangeData(to, from)`: `dst` is the parameter `to`,
`src` the parameter `from`. -/
structure Pump where
  dst : ConnId
  src : ConnId
  /-- Whether `io.Copy` has returned and the deferred closes have run. -/
  done : Bool
  deriving DecidableEq

/-- Everything the handlers can change. -/
structure State where
  /-- The committed rows `(request, response)` of the table `requests`. -/
  rows : List (Text × Text)
  /-- The response writer of the request being served. -/
  w : ResponseWriter
  /-- The socket of the client connection. -/
  connSrc : Conn
  /-- The socket returned by the dial, when one has succeeded. -/
  connDest : Option Conn
  /-- The goroutines started so far. -/
  pumps : List Pump
  /-- The calls made so far, oldest first. -/
  trace : List Event

/-- The decisions of the outside world during one request. -/
structure Env where
  /-- The result of `httpClient.Do`: the origin response, or an error. -/
  doResult : Except String Response
  /-- Whether `p.db.Begin()` succeeds. -/
  beginOk : Bool
  /-- Whether `tx.Exec` succeeds. -/
  execOk : Bool
  /-- Whether `tx.Commit()` succeeds. -/
  commitOk : Bool
  /-- Whether `net.DialTimeout` succeeds. -/
  dialOk : Bool
  /-- Whether `hijacker.Hijack()` succeeds. -/
  hijackOk : Bool

/-- Append an event to the trace. -/
def State.emit (s : State) (e : Event) : State :=
  { s with trace := s.trace ++ [e] }

/-- The dial has succeeded: a fresh open connection to the target exists. -/
def State.dialled (s : State) : State :=
  { s with connDest := some { closed := false, received := "" } }

/-- `Hijack` has succeeded: the writer no longer owns the client socket. -/
def State.hijacked (s : State) : State :=
  { s with w := { s.w with hijacked := true } }

/-- Replace the header map of the response writer. -/
def State.setHeader (s : State) (h : Header) : State :=
  { s with w := { s.w with header := h } }

/-- A transaction commits: its inserted rows join the committed rows. -/
def State.commit (s : State) (pending : List (Text × Text)) : State :=
  { s with rows := s.rows ++ pending }

/-- Go `w.WriteHeader(code)` of `net/http`: on a hijacked writer, or once the
status is fixed, the call changes nothing; otherwise a code outside 100..999
panics (`checkWriteHeaderCode`), an informational code (1xx other than 101) is
sent without fixing the status, and any other code fixes the status the client
receives. -/
def WriteHeader (code : Int) (s : State) : Ending × State :=
  let s := s.emit (.writeHeader code)
  if s.w.hijacked = true ∨ s.w.status.isSome = true then (.returned, s)
  else if code < 100 ∨ 999 < code then
    (.panicked ("invalid WriteHeader code " ++ toString code), s)
  else if code ≤ 199 ∧ code ≠ 101 then (.returned, s)
  else (.returned, { s with w := { s.w with status := some code } })

/-- The effect of a `WriteHeader` call whose code is a final status code (101 or
200..999): the call is recorded, and the code becomes the status unless the
writer is hijacked or the status is already fixed. -/
def fixStatus (code : Int) (s : State) : State :=
  let s := s.emit (.writeHeader code)
  if s.w.hijacked = true ∨ s.w.status.isSome = true then s
  else { s with w := { s.w with status := some code } }

/-- Go `io.Copy(w, body)` on the response writer: a write before any
`WriteHeader` fixes the status 200. -/
def copyToWriter (data : String) (s : State) : State :=
  if s.w.hijacked = true then s
  else
    let status := match s.w.status with
      | some c => some c
      | none => some 200
    { s with w := { s.w with status := status, body := s.w.body ++ data } }

/-! ## The handlers -/

/-- The function `copyHeaders(to, from)`, with `dst` for `to` and `src` for
`from`; the unused method `(p *Proxy) copyHeaders` has the same body. -/
def copyHeaders (lib : Lib) (dst src : Header) : Header :=
  src.entries.foldl
    (fun dst e => e.2.foldl (fun dst value => Header.Add lib dst e.1 value) dst)
    dst

/-- The method `parseRequest`. -/
def parseRequest (lib : Lib) (r : Request) (s : State) : Except String Text × State :=
  let s := s.emit (.call .parseRequest)
  match requestInfo lib r with
  | .error msg => (.error msg, s)
  | .ok info =>
    match jsonMarshalRequest info with
    | .error _ => (.ok .empty, s.emit (.log "Error marshaling request data:"))
    | .ok jsonData => (.ok jsonData, s)

/-- The method `parseResponse`. -/
def parseResponse (resp : Response) (s : State) : Except String Text × State :=
  let s := s.emit (.call .parseResponse)
  match responseInfo resp with
  | .error msg => (.error msg, s)
  | .ok info =>
    match jsonMarshalResponse info with
    | .error _ => (.ok .empty, s.emit (.log "Error marshaling response data:"))
    | .ok jsonData => (.ok jsonData, s)

/-- The transaction of `saveRequestResponse` (from `p.db.Begin()` on), given the
two serialized snapshots.  A commit that succeeds adds the inserted row to the
committed rows; `Rollback` runs as deferred on every path after a successful
`Begin` and discards whatever is not committed. -/
def saveRow (env : Env) (requestInfo responseInfo : Text) (s : State) : State :=
  let s := s.emit .dbBegin
  if env.beginOk = true then
    let s := s.emit .dbExec
    if env.execOk = true then
      let pending := [(requestInfo, responseInfo)]
      let s := s.emit .dbCommit
      if env.commitOk = true then
        let s := s.commit pending
        s.emit .dbRollback
      else
        (s.emit (.log "Error committing transaction:")).emit .dbRollback
    else
      (s.emit (.log "Error inserting data into database:")).emit .dbRollback
  else
    s.emit (.log "Error beginning transaction:")

/-- The method `saveRequestResponse`. -/
def saveRequestResponse (lib : Lib) (env : Env) (req : Request) (resp : Response)
    (s : State) : Ending × State :=
  let s := s.emit (.call .saveRequestResponse)
  match parseRequest lib req s with
  | (.error msg, s) => (.panicked msg, s)
  | (.ok requestInfo, s) =>
    match parseResponse resp s with
    | (.error msg, s) => (.panicked msg, s)
    | (.ok responseInfo, s) => (.returned, saveRow env requestInfo responseInfo s)

/-- The method `handleHTTP`.  `httpClient.Do` sends the request, which reads
the request body to its end and closes it, and yields `env.doResult`.  The
deferred `proxyResponse.Body.Close()` runs on return and while panicking. -/
def handleHTTP (lib : Lib) (env : Env) (r : Request) (s : State) : Ending × State :=
  let s := s.emit (.call .handleHTTP)
  let r := { r with RequestURI := "" }
  let r := { r with Header := Header.Del lib r.Header "Proxy-Connection" }
  let r := { r with Body := r.Body.sendAndClose }
  match env.doResult with
  | .error msg => (.exited 1, s.emit (.fatal msg))
  | .ok proxyResponse =>
    match saveRequestResponse lib env r proxyResponse s with
    | (.returned, s) =>
      let s := s.emit (.call .copyHeaders)
      let s := s.setHeader (copyHeaders lib s.w.header proxyResponse.Header)
      match WriteHeader proxyResponse.StatusCode s with
      | (.returned, s) =>
        let s := copyToWriter proxyResponse.Body s
        (.returned, s.emit .closeResponseBody)
      | (ending, s) => (ending, s.emit .closeResponseBody)
    | (ending, s) => (ending, s.emit .closeResponseBody)

/-- The method `connectHandshake`: dial `r.Host`; on success answer 200.  The
result is how the call ended, the connection (`none` for the error of a failed
dial) and the state. -/
def connectHandshake (env : Env) (r : Request) (s : State) :
    Ending × Option ConnId × State :=
  let s := s.emit (.call .connectHandshake)
  let s := s.emit (.dial r.Host)
  if env.dialOk = true then
    let s := s.dialled
    match WriteHeader 200 s with
    | (.returned, s) => (.returned, some .connDest, s)
    | (ending, s) => (ending, none, s)
  else (.returned, none, s)

/-- The statement `go p.exchangeData(to, from)`: start a pump. -/
def goExchangeData (dst src : ConnId) (s : State) : State :=
  let s := s.emit (.call .exchangeData)
  { s with pumps := s.pumps ++ [{ dst := dst, src := src, done := false }] }

/-- The method `handleHTTPS`. -/
def handleHTTPS (env : Env) (r : Request) (s : State) : Ending × State :=
  let s := s.emit (.call .handleHTTPS)
  match connectHandshake env r s with
  | (.returned, none, s) => WriteHeader 500 s
  | (.returned, some dest, s) =>
    if s.w.isHijacker = true then
      let s := s.emit .hijack
      if env.hijackOk = true then
        let s := s.hijacked
        let source := ConnId.connSrc
        let s := goExchangeData dest source s
        let s := goExchangeData source dest s
        (.returned, s)
      else WriteHeader 500 s
    else WriteHeader 500 s
  | (ending, _, s) => (ending, s)

/-- The method `ServeHTTP`. -/
def ServeHTTP (lib : Lib) (env : Env) (r : Request) (s : State) : Ending × State :=
  if r.Method = "CONNECT" then handleHTTPS env r s
  else handleHTTP lib env r s

/-! ## The relay pumps -/

/-- What a running `io.Copy(to, from)` does next: move a chunk of bytes read
from `from` to `to`, or return (end of stream, or an error). -/
inductive CopyStep where
  | chunk (data : String)
  | stop

/-- The connection behind an identifier. -/
def State.conn (s : State) : ConnId → Option Conn
  | .connSrc => some s.connSrc
  | .connDest => s.connDest

/-- Go `Close` on a connection. -/
def State.close (s : State) : ConnId → State
  | .connSrc => { s with connSrc := { s.connSrc with closed := true } }
  | .connDest => { s with connDest := s.connDest.map (fun c => { c with closed := true }) }

/-- Go `Write` on an open connection. -/
def State.write (s : State) (data : String) : ConnId → State
  | .connSrc => { s with connSrc := { s.connSrc with received := s.connSrc.received ++ data } }
  | .connDest =>
    { s with connDest := s.connDest.map (fun c => { c with received := c.received ++ data }) }

/-- Whether a connection is closed (a connection that was never dialled counts as closed). -/
def State.isClosed (s : State) (c : ConnId) : Bool :=
  match s.conn c with
  | some conn => conn.closed
  | none => true

/-- The end of `exchangeData`: the deferred `to.Close()` and `from.Close()`. -/
def exchangeDataEnd (p : Pump) (s : State) : Pump × State :=
  ({ p with done := true }, (s.close p.dst).close p.src)

/-- One step of a goroutine running `exchangeData(to, from)`: `io.Copy` moves a
chunk while both connections are open; it returns on `stop` or when a
connection is closed, and then the deferred closes run. -/
def exchangeData (p : Pump) (step : CopyStep) (s : State) : Pump × State :=
  if p.done = true then (p, s)
  else
    match step with
    | .stop => exchangeDataEnd p s
    | .chunk data =>
      if s.isClosed p.src = true ∨ s.isClosed p.dst = true then exchangeDataEnd p s
      else (p, s.write data p.dst)

/-- One entry of a schedule: the pump at position `i` of `pumps` takes a step. -/
def stepPump (i : Nat) (step : CopyStep) (s : State) : State :=
  match s.pumps.get? i with
  | none => s
  | some p =>
    match exchangeData p step s with
    | (p, s) => { s with pumps := s.pumps.set i p }

/-- Run the goroutines along a schedule: each entry names a pump (by its
position in `pumps`) and the step its `io.Copy` takes. -/
def runPumps : List (Nat × CopyStep) → State → State
  | [], s => s
  | (i, step) :: rest, s => runPumps rest (stepPump i step s)

/-! ## A reference instance of the library boundary -/

/-- The bytes allowed in a header name (the token characters of RFC 7230). -/
def isTokenChar (c : Char) : Bool :=
  c.isAlphanum || "!#$%&*+-.^_|~".toList.contains c || c = Char.ofNat 39 || c = Char.ofNat 96

/-- Upper-case the first letter and every letter after a hyphen, lower-case the rest. -/
def canonChars : Bool → List Char → List Char
  | _, [] => []
  | upper, c :: cs => (if upper then c.toUpper else c.toLower) :: canonChars (c = '-') cs

/-- Reference `CanonicalMIMEHeaderKey`: a name with a byte that is no token
character is returned unchanged. -/
def refCanonicalMIMEHeaderKey (s : String) : String :=
  if s.toList.all isTokenChar then String.mk (canonChars true s.toList) else s

/-- Split a list at every separator. -/
def splitAt (sep : Char) : List Char → List (List Char)
  | [] => [[]]
  | c :: cs =>
    match splitAt sep cs with
    | [] => [[c]]
    | seg :: segs => if c = sep then [] :: seg :: segs else (c :: seg) :: segs

/-- Go `strings.Cut`: the text before and after the first separator. -/
def cutAt (sep : Char) : List Char → List Char × List Char
  | [] => ([], [])
  | c :: cs =>
    if c = sep then ([], cs)
    else match cutAt sep cs with
      | (before, after) => (c :: before, after)

/-- The value of a hexadecimal digit. -/
def hexValue (c : Char) : Option Nat :=
  if c.isDigit then some (c.toNat - 48)
  else if 97 ≤ c.toNat ∧ c.toNat ≤ 102 then some (c.toNat - 87)
  else if 65 ≤ c.toNat ∧ c.toNat ≤ 70 then some (c.toNat - 55)
  else none

/-- Reference `url.QueryUnescape` (on single-byte characters): `+` is a space,
`%XX` the byte `XX`; a malformed escape is an error. -/
def queryUnescape : List Char → Option (List Char)
  | [] => some []
  | '%' :: a :: b :: rest =>
    match hexValue a, hexValue b, queryUnescape rest with
    | some x, some y, some out => some (Char.ofNat (16 * x + y) :: out)
    | _, _, _ => none
  | '%' :: _ => none
  | '+' :: rest => (queryUnescape rest).map (fun out => ' ' :: out)
  | c :: rest => (queryUnescape rest).map (fun out => c :: out)

/-- One `key=value` piece of `url.ParseQuery`: a piece that is empty, holds a
semicolon or a malformed escape is skipped. -/
def parsePair (m : Values) (piece : List Char) : Values :=
  if piece.contains ';' ∨ piece = [] then m
  else
    match cutAt '=' piece with
    | (key, value) =>
      match queryUnescape key, queryUnescape value with
      | some k, some v => m.insert (String.mk k) (m.get (String.mk k) ++ [String.mk v])
      | _, _ => m

/-- Reference `url.ParseQuery`. -/
def refParseQuery (query : String) : Values :=
  (splitAt '&' query.toList).foldl parsePair ∅

/-- Reference `mime.ParseMediaType`: the lower-cased text before the parameters. -/
def refParseMediaType (v : String) : String :=
  String.mk (((v.toList.dropWhile (fun c => c = ' ')).takeWhile
    (fun c => c ≠ ';' ∧ c ≠ ' ')).map Char.toLower)

/-- Reference cookie reader: the `name=value` pieces of every `Cookie` line. -/
def refReadCookies (h : Header) : List (String × String) :=
  (h.get "Cookie").flatMap (fun line =>
    (splitAt ';' line.toList).filterMap (fun piece =>
      match cutAt '=' (piece.dropWhile (fun c => c = ' ')) with
      | (name, value) => if name = [] then none else some (String.mk name, String.mk value)))

/-- The reference instance of the library boundary. -/
def stdlib : Lib where
  canonicalMIMEHeaderKey := refCanonicalMIMEHeaderKey
  parseQuery := refParseQuery
  parseMediaType := refParseMediaType
  readCookies := refReadCookies

/-! ## Sample inputs -/

/-- A response writer on which nothing has been written yet. -/
def freshWriter (isHijacker : Bool) : ResponseWriter :=
  { header := ∅, status := none, body := "", isHijacker := isHijacker, hijacked := false }

/-- The state before a request is served: empty storage, open client socket,
no dialled socket, no goroutine. -/
def freshState (isHijacker : Bool) : State :=
  { rows := [], w := freshWriter isHijacker, connSrc := { closed := false, received := "" },
    connDest := none, pumps := [], trace := [] }

/-- An environment in which every operation succeeds and the origin answers `resp`. -/
def allOk (resp : Response) : Env :=
  { doResult := .ok resp, beginOk := true, execOk := true, commitOk := true,
    dialOk := true, hijackOk := true }

/-- The response `200 OK` with one header and a short body. -/
def okResponse : Response :=
  { StatusCode := 200, Status := "200 OK",
    Header := (∅ : Header).insert "Content-Type" ["text/plain"], Body := "hello" }

/-- The request `GET http://example.com/?a=1&a=2` with the header `X-Test: v1`. -/
def getRequest : Request :=
  { Method := "GET", URL := { Path := "/", RawQuery := "a=1&a=2" },
    Header := (∅ : Header).insert "X-Test" ["v1"],
    Body := { unread := "", closed := false }, Host := "example.com",
    RequestURI := "http://example.com/?a=1&a=2", PostForm := none }

/-- The request `POST http://example.com/submit` with the form body `foo=bar&foo=baz`. -/
def postRequest : Request :=
  { Method := "POST", URL := { Path := "/submit", RawQuery := "" },
    Header := (∅ : Header).insert "Content-Type" ["application/x-www-form-urlencoded"],
    Body := { unread := "foo=bar&foo=baz", closed := false }, Host := "example.com",
    RequestURI := "http://example.com/submit", PostForm := none }

/-- The response `099 Odd`: a status line the HTTP client accepts, with a
code below 100. -/
def oddResponse : Response :=
  { StatusCode := 99, Status := "099 Odd",
    Header := (∅ : Header).insert "Content-Type" ["text/plain"], Body := "hello" }

/-- The request `GET http://example.com/?a=1&a=2` with a header map that holds
the name `X-Empty` with an empty list of values. -/
def emptyValueRequest : Request :=
  { Method := "GET", URL := { Path := "/", RawQuery := "a=1&a=2" },
    Header := (∅ : Header).insert "X-Empty" [],
    Body := { unread := "", closed := false }, Host := "example.com",
    RequestURI := "http://example.com/?a=1&a=2", PostForm := none }

/-- The request `CONNECT example.com:443`. -/
def connectRequest : Request :=
  { Method := "CONNECT", URL := { Path := "", RawQuery := "" }, Header := ∅,
    Body := { unread := "", closed := false }, Host := "example.com:443",
    RequestURI := "example.com:443", PostForm := none }

/-- An environment in which the dial succeeds and `Hijack` returns an error. -/
def hijackFails : Env :=
  { doResult := .ok okResponse, beginOk := true, execOk := true, commitOk := true,
    dialOk := true, hijackOk := false }

/-- An environment in which the dial fails. -/
def dialFails : Env :=
  { doResult := .ok okResponse, beginOk := true, execOk := true, commitOk := true,
    dialOk := false, hijackOk := true }

/-- Origin headers with a repeated name: `Set-Cookie: a=1`, `Set-Cookie: b=2`. -/
def originHeader : Header :=
  ((∅ : Header).insert "Content-Type" ["text/html"]).insert "Set-Cookie" ["a=1", "b=2"]

/-- A client header map that already holds a value. -/
def clientHeader : Header :=
  (∅ : Header).insert "Set-Cookie" ["x=0"]

/-- The snapshot of `getRequest`. -/
def getSnapshot : Text :=
  .request { Method := "GET", Path := "/", GetParams := (∅ : StringMap).insert "a" "1",
             Headers := (∅ : StringMap).insert "X-Test" "v1", Cookies := ∅, PostParams := ∅ }

/-- The snapshot of `okResponse`. -/
def okSnapshot : Text :=
  .response { Code := 200, Message := "200 OK",
              Headers := (∅ : StringMap).insert "Content-Type" "text/plain" }

/-- The snapshot of `oddResponse`. -/
def oddSnapshot : Text :=
  .response { Code := 99, Message := "099 Odd",
              Headers := (∅ : StringMap).insert "Content-Type" "text/plain" }

/-- An environment in which only the commit fails. -/
def commitFails : Env :=
  { doResult := .ok okResponse, beginOk := true, execOk := true, commitOk := false,
    dialOk := true, hijackOk := true }

/-- The request as `handleHTTP` leaves it once `httpClient.Do` has returned:
no request URI, no `Proxy-Connection` header, the body sent and closed. -/
def sentRequest (lib : Lib) (r : Request) : Request :=
  { Method := r.Method, URL := r.URL, Header := Header.Del lib r.Header "Proxy-Connection",
    Body := r.Body.sendAndClose, Host := r.Host, RequestURI := "", PostForm := r.PostForm }

/-- An environment in which the origin cannot be reached. -/
def originDown : Env :=
  { doResult := .error "dial tcp: lookup example.com: no such host", beginOk := true,
    execOk := true, commitOk := true, dialOk := false, hijackOk := true }

/-- The snapshot `handleHTTP` stores for `postRequest`. -/
def postSnapshot : Text :=
  .request { Method := "POST", Path := "/submit", GetParams := ∅,
             Headers := (∅ : StringMap).insert "Content-Type" "application/x-www-form-urlencoded",
             Cookies := ∅, PostParams := ∅ }

/-- Both sockets of the tunnel exist and are closed. -/
def State.bothClosed (s : State) : Prop :=
  s.connSrc.closed = true ∧ ∃ c, s.connDest = some c ∧ c.closed = true

/-- The invariant of a tunnel: the dialled socket exists, every pump copies
between the two different sockets, and once a pump is done both are closed. -/
def TunnelInv (s : State) : Prop :=
  s.connDest.isSome = true ∧ (∀ p ∈ s.pumps, p.dst ≠ p.src) ∧
  ((∃ p ∈ s.pumps, p.done = true) → s.bothClosed)

/-! # Verification -/

/-! ## Basic facts about the effects -/

@[simp]
theorem emit_fields (s : State) (e : Event) :
    (s.emit e).trace = s.trace ++ [e] ∧ (s.emit e).rows = s.rows ∧ (s.emit e).w = s.w ∧
    (s.emit e).pumps = s.pumps ∧ (s.emit e).connDest = s.connDest ∧
    (s.emit e).connSrc = s.connSrc :=
  ⟨rfl, rfl, rfl, rfl, rfl, rfl⟩

@[simp]
theorem dialled_fields (s : State) :
    s.dialled.trace = s.trace ∧ s.dialled.rows = s.rows ∧ s.dialled.w = s.w ∧
    s.dialled.pumps = s.pumps ∧
    s.dialled.connDest = some { closed := false, received := "" } ∧
    s.dialled.connSrc = s.connSrc :=
  ⟨rfl, rfl, rfl, rfl, rfl, rfl⟩

@[simp]
theorem hijacked_fields (s : State) :
    s.hijacked.trace = s.trace ∧ s.hijacked.rows = s.rows ∧
    s.hijacked.w.status = s.w.status ∧ s.hijacked.w.hijacked = true ∧
    s.hijacked.w.header = s.w.header ∧ s.hijacked.w.body = s.w.body ∧
    s.hijacked.w.isHijacker = s.w.isHijacker ∧
    s.hijacked.pumps = s.pumps ∧ s.hijacked.connDest = s.connDest ∧
    s.hijacked.connSrc = s.connSrc :=
  ⟨rfl, rfl, rfl, rfl, rfl, rfl, rfl, rfl, rfl, rfl⟩

@[simp]
theorem setHeader_fields (s : State) (h : Header) :
    (s.setHeader h).trace = s.trace ∧ (s.setHeader h).rows = s.rows ∧
    (s.setHeader h).w.status = s.w.status ∧ (s.setHeader h).w.hijacked = s.w.hijacked ∧
    (s.setHeader h).w.header = h ∧ (s.setHeader h).w.body = s.w.body ∧
    (s.setHeader h).w.isHijacker = s.w.isHijacker ∧
    (s.setHeader h).pumps = s.pumps ∧ (s.setHeader h).connDest = s.connDest ∧
    (s.setHeader h).connSrc = s.connSrc :=
  ⟨rfl, rfl, rfl, rfl, rfl, rfl, rfl, rfl, rfl, rfl⟩

@[simp]
theorem commit_fields (s : State) (pending : List (Text × Text)) :
    (s.commit pending).trace = s.trace ∧ (s.commit pending).rows = s.rows ++ pending ∧
    (s.commit pending).w = s.w ∧ (s.commit pending).pumps = s.pumps ∧
    (s.commit pending).connDest = s.connDest ∧ (s.commit pending).connSrc = s.connSrc :=
  ⟨rfl, rfl, rfl, rfl, rfl, rfl⟩

@[simp]
theorem fixStatus_fields (code : Int) (s : State) :
    (fixStatus code s).trace = s.trace ++ [.writeHeader code] ∧
    (fixStatus code s).rows = s.rows ∧
    (fixStatus code s).w.hijacked = s.w.hijacked ∧
    (fixStatus code s).w.header = s.w.header ∧
    (fixStatus code s).w.body = s.w.body ∧
    (fixStatus code s).w.isHijacker = s.w.isHijacker ∧
    (fixStatus code s).pumps = s.pumps ∧
    (fixStatus code s).connDest = s.connDest ∧
    (fixStatus code s).connSrc = s.connSrc := by
  unfold fixStatus
  simp only [emit_fields]
  split <;> exact ⟨rfl, rfl, rfl, rfl, rfl, rfl, rfl, rfl, rfl⟩

/-- The status after a final `WriteHeader`: the one already fixed, else the new
code (unless the writer is hijacked). -/
theorem fixStatus_status (code : Int) (s : State) :
    (fixStatus code s).w.status =
      if s.w.hijacked = true ∨ s.w.status.isSome = true then s.w.status else some code := by
  unfold fixStatus
  simp only [emit_fields]
  split <;> rfl

/-- A `WriteHeader` call with a final status code returns and fixes the status. -/
theorem WriteHeader_final (code : Int) (s : State)
    (h : code = 101 ∨ (200 ≤ code ∧ code ≤ 999)) :
    WriteHeader code s = (.returned, fixStatus code s) := by
  unfold WriteHeader fixStatus
  simp only [emit_fields]
  split
  · rfl
  · have h1 : ¬ (code < 100 ∨ 999 < code) := by omega
    have h2 : ¬ (code ≤ 199 ∧ code ≠ 101) := by omega
    rw [if_neg h1, if_neg h2]

@[simp]
theorem WriteHeader_200 (s : State) : WriteHeader 200 s = (.returned, fixStatus 200 s) :=
  WriteHeader_final 200 s (Or.inr (by decide))

@[simp]
theorem WriteHeader_500 (s : State) : WriteHeader 500 s = (.returned, fixStatus 500 s) :=
  WriteHeader_final 500 s (Or.inr (by decide))

/-- Whatever its code, a `WriteHeader` call is recorded and touches only the
status of the writer. -/
theorem WriteHeader_fields (code : Int) (s : State) :
    (WriteHeader code s).2.trace = s.trace ++ [.writeHeader code] ∧
    (WriteHeader code s).2.rows = s.rows ∧
    (WriteHeader code s).2.w.hijacked = s.w.hijacked ∧
    (WriteHeader code s).2.w.header = s.w.header ∧
    (WriteHeader code s).2.w.body = s.w.body := by
  unfold WriteHeader
  simp only [emit_fields]
  split
  · exact ⟨rfl, rfl, rfl, rfl, rfl⟩
  · split
    · exact ⟨rfl, rfl, rfl, rfl, rfl⟩
    · split <;> exact ⟨rfl, rfl, rfl, rfl, rfl⟩

/-- A `WriteHeader` call with a code in 100..999 returns. -/
theorem WriteHeader_returned (code : Int) (s : State) (h1 : 100 ≤ code) (h2 : code ≤ 999) :
    (WriteHeader code s).1 = .returned := by
  unfold WriteHeader
  simp only [emit_fields]
  have h : ¬ (code < 100 ∨ 999 < code) := by omega
  split
  · rfl
  · split <;> rfl

@[simp]
theorem copyToWriter_fields (data : String) (s : State) :
    (copyToWriter data s).trace = s.trace ∧ (copyToWriter data s).rows = s.rows ∧
    (copyToWriter data s).pumps = s.pumps ∧ (copyToWriter data s).connDest = s.connDest ∧
    (copyToWriter data s).connSrc = s.connSrc := by
  unfold copyToWriter
  split <;> exact ⟨rfl, rfl, rfl, rfl, rfl⟩

@[simp]
theorem goExchangeData_fields (dst src : ConnId) (s : State) :
    (goExchangeData dst src s).trace = s.trace ++ [.call .exchangeData] ∧
    (goExchangeData dst src s).rows = s.rows ∧ (goExchangeData dst src s).w = s.w ∧
    (goExchangeData dst src s).pumps = s.pumps ++ [{ dst := dst, src := src, done := false }] ∧
    (goExchangeData dst src s).connDest = s.connDest ∧
    (goExchangeData dst src s).connSrc = s.connSrc :=
  ⟨rfl, rfl, rfl, rfl, rfl, rfl⟩

/-! ## The tunnel handler -/

/-- The pumps change neither the storage nor the trace. -/
theorem close_rows_trace (s : State) (c : ConnId) :
    (s.close c).rows = s.rows ∧ (s.close c).trace = s.trace := by
  cases c <;> exact ⟨rfl, rfl⟩

theorem write_rows_trace (s : State) (data : String) (c : ConnId) :
    (s.write data c).rows = s.rows ∧ (s.write data c).trace = s.trace := by
  cases c <;> exact ⟨rfl, rfl⟩

theorem exchangeDataEnd_rows_trace (p : Pump) (s : State) :
    (exchangeDataEnd p s).2.rows = s.rows ∧ (exchangeDataEnd p s).2.trace = s.trace := by
  unfold exchangeDataEnd
  simp only [(close_rows_trace _ _).1, (close_rows_trace _ _).2, and_self]

theorem exchangeData_rows_trace (p : Pump) (step : CopyStep) (s : State) :
    (exchangeData p step s).2.rows = s.rows ∧ (exchangeData p step s).2.trace = s.trace := by
  unfold exchangeData
  split
  · exact ⟨rfl, rfl⟩
  · split
    · exact exchangeDataEnd_rows_trace p s
    · split
      · exact exchangeDataEnd_rows_trace p s
      · exact write_rows_trace s _ _

theorem stepPump_rows_trace (i : Nat) (step : CopyStep) (s : State) :
    (stepPump i step s).rows = s.rows ∧ (stepPump i step s).trace = s.trace := by
  unfold stepPump
  cases s.pumps.get? i with
  | none => exact ⟨rfl, rfl⟩
  | some p => exact exchangeData_rows_trace p step s

theorem runPumps_rows_trace (schedule : List (Nat × CopyStep)) (s : State) :
    (runPumps schedule s).rows = s.rows ∧ (runPumps schedule s).trace = s.trace := by
  induction schedule generalizing s with
  | nil => exact ⟨rfl, rfl⟩
  | cons hd rest ih =>
    obtain ⟨i, step⟩ := hd
    unfold runPumps
    rw [(ih _).1, (ih _).2]
    exact stepPump_rows_trace i step s

/-- The storage and trace effects of `handleHTTPS`: it returns, leaves the rows
alone, and of the recorded calls exactly one is a handler, none a capture. -/
theorem handleHTTPS_frame (env : Env) (r : Request) (s : State) :
    (handleHTTPS env r s).1 = .returned ∧
    (handleHTTPS env r s).2.rows = s.rows ∧
    ∃ evs, (handleHTTPS env r s).2.trace = s.trace ++ evs ∧
      (∀ e ∈ evs, e.isCapture = false) ∧
      evs.filter Event.isHandlerCall = [.call .handleHTTPS] := by
  unfold handleHTTPS connectHandshake
  by_cases hd : env.dialOk = true
  · by_cases hh : s.w.isHijacker = true
    · by_cases hk : env.hijackOk = true
      · simp [hd, hh, hk, Event.isCapture, Event.isHandlerCall]
      · simp [hd, hh, hk, Event.isCapture, Event.isHandlerCall]
    · simp [hd, hh, Event.isCapture, Event.isHandlerCall]
  · simp [hd, Event.isCapture, Event.isHandlerCall]

/-- A failed dial is answered with the status 500 and starts no pump. -/
theorem handleHTTPS_dial_failure (env : Env) (r : Request) (s : State)
    (hd : env.dialOk = false) (hs : s.w.status = none) (hj : s.w.hijacked = false) :
    (handleHTTPS env r s).2.w.status = some 500 ∧ (handleHTTPS env r s).2.pumps = s.pumps := by
  unfold handleHTTPS connectHandshake
  simp [hd, fixStatus_status, hs, hj]

/-- A failed dial at `connectRequest`: status 500, no socket, no pump, no row. -/
theorem handleHTTPS_dial_failure_example :
    (handleHTTPS dialFails connectRequest (freshState true)).2.w.status = some 500 ∧
    (handleHTTPS dialFails connectRequest (freshState true)).2.connDest = none ∧
    (handleHTTPS dialFails connectRequest (freshState true)).2.pumps = [] ∧
    (handleHTTPS dialFails connectRequest (freshState true)).2.trace =
      [.call .handleHTTPS, .call .connectHandshake, .dial "example.com:443",
       .writeHeader 500] := by
  decide

/-- After a successful dial the status 200 is already fixed when hijacking
fails: the later `WriteHeader(500)` changes nothing, no pump is started and the
dialled connection stays open. -/
theorem handleHTTPS_hijack_failure (env : Env) (r : Request) (s : State)
    (hd : env.dialOk = true) (hf : s.w.isHijacker = false ∨ env.hijackOk = false)
    (hs : s.w.status = none) (hj : s.w.hijacked = false) :
    (handleHTTPS env r s).2.w.status = some 200 ∧ (handleHTTPS env r s).2.pumps = s.pumps ∧
    (handleHTTPS env r s).2.connDest = some { closed := false, received := "" } := by
  unfold handleHTTPS connectHandshake
  by_cases hh : s.w.isHijacker = true
  · have hk : env.hijackOk = false := by
      rcases hf with h | h
      · rw [h] at hh; cases hh
      · exact h
    simp [hd, hh, hk, fixStatus_status, hs, hj]
  · simp [hd, hh, fixStatus_status, hs, hj]

/-- C2 (code at the failing input): after a successful dial, a response writer
that cannot be hijacked, or whose `Hijack` fails, leaves the client with the
status 200 fixed by `connectHandshake`, not with 500; no pump is started. -/
theorem handleHTTPS_hijack_failure_delivers_200 :
    (handleHTTPS (allOk okResponse) connectRequest (freshState false)).2.w.status = some 200 ∧
    (handleHTTPS (allOk okResponse) connectRequest (freshState false)).2.pumps = [] ∧
    (handleHTTPS hijackFails connectRequest (freshState true)).2.w.status = some 200 ∧
    (handleHTTPS hijackFails connectRequest (freshState true)).2.pumps = [] := by
  have h1 := handleHTTPS_hijack_failure (allOk okResponse) connectRequest (freshState false)
    rfl (Or.inl rfl) rfl rfl
  have h2 := handleHTTPS_hijack_failure hijackFails connectRequest (freshState true)
    rfl (Or.inr rfl) rfl rfl
  exact ⟨h1.1, h1.2.1, h2.1, h2.2.1⟩

/-- C7 (code at the failing input): when the dial succeeds and the writer
cannot be hijacked, or `Hijack` fails, `handleHTTPS` returns with the dialled
connection still open and with no goroutine that would close it. -/
theorem handleHTTPS_early_return_leaks_connDest :
    (handleHTTPS (allOk okResponse) connectRequest (freshState false)).1 = .returned ∧
    (handleHTTPS (allOk okResponse) connectRequest (freshState false)).2.connDest
      = some { closed := false, received := "" } ∧
    (handleHTTPS (allOk okResponse) connectRequest (freshState false)).2.pumps = [] ∧
    (handleHTTPS hijackFails connectRequest (freshState true)).1 = .returned ∧
    (handleHTTPS hijackFails connectRequest (freshState true)).2.connDest
      = some { closed := false, received := "" } ∧
    (handleHTTPS hijackFails connectRequest (freshState true)).2.pumps = [] := by
  have h1 := handleHTTPS_hijack_failure (allOk okResponse) connectRequest (freshState false)
    rfl (Or.inl rfl) rfl rfl
  have h2 := handleHTTPS_hijack_failure hijackFails connectRequest (freshState true)
    rfl (Or.inr rfl) rfl rfl
  exact ⟨(handleHTTPS_frame _ _ _).1, h1.2.2, h1.2.1, (handleHTTPS_frame _ _ _).1, h2.2.2, h2.2.1⟩

/-- C10: the handling of a CONNECT request, whatever the dial, the hijack and
the relay do, leaves the committed rows unchanged, begins no transaction,
inserts no row and never calls `parseRequest`, `parseResponse` or
`saveRequestResponse`. -/
theorem connect_leaves_storage_unchanged (lib : Lib) (env : Env) (r : Request) (s : State)
    (schedule : List (Nat × CopyStep)) (hm : r.Method = "CONNECT") :
    (runPumps schedule (ServeHTTP lib env r s).2).rows = s.rows ∧
    ∃ evs, (runPumps schedule (ServeHTTP lib env r s).2).trace = s.trace ++ evs ∧
      ∀ e ∈ evs, e.isCapture = false := by
  unfold ServeHTTP
  rw [if_pos hm, (runPumps_rows_trace _ _).1, (runPumps_rows_trace _ _).2]
  obtain ⟨_, hrows, evs, htrace, hcap, _⟩ := handleHTTPS_frame env r s
  exact ⟨hrows, evs, htrace, hcap⟩

/-- C10 at a concrete tunnel: dial and hijack succeed, bytes flow, a pump stops. -/
theorem connect_leaves_storage_unchanged_witness :
    (runPumps [(0, .chunk "hello"), (1, .chunk "world"), (0, .stop), (1, .stop)]
      (ServeHTTP stdlib (allOk okResponse) connectRequest (freshState true)).2).rows
      = (freshState true).rows ∧
    ∃ evs, (runPumps [(0, .chunk "hello"), (1, .chunk "world"), (0, .stop), (1, .stop)]
      (ServeHTTP stdlib (allOk okResponse) connectRequest (freshState true)).2).trace
      = (freshState true).trace ++ evs ∧ ∀ e ∈ evs, e.isCapture = false :=
  connect_leaves_storage_unchanged stdlib (allOk okResponse) connectRequest (freshState true)
    [(0, .chunk "hello"), (1, .chunk "world"), (0, .stop), (1, .stop)] rfl

/-! ## The forwarder and the persistence sink -/

theorem parseRequest_eq (lib : Lib) (r : Request) (s : State) :
    parseRequest lib r s =
      ((requestInfo lib r).map Text.request, s.emit (.call .parseRequest)) := by
  unfold parseRequest jsonMarshalRequest
  cases requestInfo lib r <;> rfl

theorem parseResponse_eq (resp : Response) (s : State) :
    parseResponse resp s =
      ((responseInfo resp).map Text.response, s.emit (.call .parseResponse)) := by
  unfold parseResponse jsonMarshalResponse
  cases responseInfo resp <;> rfl

/-- The rows after the transaction: one more exactly when all three steps succeed. -/
theorem saveRow_rows (env : Env) (a b : Text) (s : State) :
    (saveRow env a b s).rows =
      if env.beginOk = true ∧ env.execOk = true ∧ env.commitOk = true
      then s.rows ++ [(a, b)] else s.rows := by
  unfold saveRow
  cases env.beginOk <;> cases env.execOk <;> cases env.commitOk <;> simp

/-- The calls of the transaction, by outcome. -/
theorem saveRow_trace (env : Env) (a b : Text) (s : State) :
    (saveRow env a b s).trace = s.trace ++
      (if env.beginOk = true then
        if env.execOk = true then
          if env.commitOk = true then [.dbBegin, .dbExec, .dbCommit, .dbRollback]
          else [.dbBegin, .dbExec, .dbCommit, .log "Error committing transaction:", .dbRollback]
        else [.dbBegin, .dbExec, .log "Error inserting data into database:", .dbRollback]
      else [.dbBegin, .log "Error beginning transaction:"]) := by
  unfold saveRow
  cases env.beginOk <;> cases env.execOk <;> cases env.commitOk <;> simp

theorem saveRow_w (env : Env) (a b : Text) (s : State) : (saveRow env a b s).w = s.w := by
  unfold saveRow
  cases env.beginOk <;> cases env.execOk <;> cases env.commitOk <;> simp

/-- The transaction adds no handler call to the trace. -/
theorem saveRow_no_handler (env : Env) (a b : Text) (s : State) :
    ∃ evs, (saveRow env a b s).trace = s.trace ++ evs ∧
      evs.filter Event.isHandlerCall = [] := by
  refine ⟨_, saveRow_trace env a b s, ?_⟩
  cases env.beginOk <;> cases env.execOk <;> cases env.commitOk <;>
    simp [Event.isHandlerCall]

/-! ## The metadata extractor keeps the first value -/

/-- The loop over entries with distinct keys and non-empty value lists ends
without a panic; a key of the entries is mapped to the head of its list, any
other key is left as it was. -/
theorem firstValuesLoop_spec (l : List (Sigma fun _ : String => List String))
    (hnd : l.NodupKeys) (hne : ∀ e ∈ l, e.2 ≠ []) (acc : StringMap) :
    ∃ out, firstValuesLoop l acc = .ok out ∧
      ∀ k, out.lookup k =
        match l.dlookup k with
        | some vs => vs.head?
        | none => acc.lookup k := by
  induction l generalizing acc with
  | nil => exact ⟨acc, rfl, fun k => rfl⟩
  | cons e rest ih =>
    obtain ⟨key, vs⟩ := e
    have hnd2 := List.nodupKeys_cons.1 hnd
    cases vs with
    | nil => exact absurd rfl (hne ⟨key, []⟩ (List.mem_cons_self _ _))
    | cons v vs =>
      obtain ⟨out, hout, hlook⟩ :=
        ih hnd2.2 (fun e he => hne e (List.mem_cons_of_mem _ he)) (acc.insert key v)
      refine ⟨out, hout, fun k => ?_⟩
      rw [hlook k]
      by_cases hk : k = key
      · subst hk
        have hnone : rest.dlookup k = none := List.dlookup_eq_none.2 hnd2.1
        rw [hnone, List.dlookup_cons_eq]
        simp
      · rw [List.dlookup_cons_ne _ _ hk]
        cases rest.dlookup k with
        | some ws => rfl
        | none => simp [AList.lookup_insert_ne hk]

/-- On a map whose value lists are all non-empty `firstValues` does not panic:
the result has the same keys and maps each to the first value of its list. -/
theorem firstValues_spec (m : Values) (hne : ∀ k vs, m.lookup k = some vs → vs ≠ []) :
    ∃ out, firstValues m = .ok out ∧ (∀ k, k ∈ out ↔ k ∈ m) ∧
      ∀ k vs, m.lookup k = some vs → out.lookup k = vs.head? := by
  have hent : ∀ e ∈ m.entries, e.2 ≠ [] := by
    intro e he
    obtain ⟨k, vs⟩ := e
    exact hne k vs (AList.mem_lookup_iff.2 he)
  obtain ⟨out, hout, hlook⟩ := firstValuesLoop_spec m.entries m.nodupKeys hent ∅
  have hlook2 : ∀ k, out.lookup k = (m.lookup k).bind List.head? := by
    intro k
    rw [hlook k]
    show _ = (m.entries.dlookup k).bind List.head?
    cases m.entries.dlookup k <;> rfl
  refine ⟨out, hout, fun k => ?_, fun k vs hk => ?_⟩
  · rw [← AList.lookup_isSome, ← AList.lookup_isSome, hlook2 k]
    cases hk : m.lookup k with
    | none => simp
    | some vs =>
      cases vs with
      | nil => exact absurd rfl (hne k [] hk)
      | cons v vs => simp
  · rw [hlook2 k, hk]
    rfl

/-- The record `parseRequest` builds when no value list is empty. -/
theorem requestInfo_ok (lib : Lib) (r : Request)
    (hq : ∀ k vs, (r.URL.Query lib).lookup k = some vs → vs ≠ [])
    (hh : ∀ k vs, r.Header.lookup k = some vs → vs ≠ []) :
    ∃ g h, firstValues (r.URL.Query lib) = .ok g ∧ firstValues r.Header = .ok h ∧
      requestInfo lib r = .ok
        { Method := (r.ParseForm lib).Method, Path := (r.ParseForm lib).URL.Path,
          GetParams := g, Headers := h, Cookies := cookieMap (r.Cookies lib),
          PostParams := copyValues ((r.ParseForm lib).PostForm.getD ∅) } := by
  obtain ⟨g, hg, -⟩ := firstValues_spec (r.URL.Query lib) hq
  obtain ⟨h, hhd, -⟩ := firstValues_spec r.Header hh
  refine ⟨g, h, hg, hhd, ?_⟩
  simp only [requestInfo, hg, hhd]

/-- The record `parseResponse` builds when no value list is empty. -/
theorem responseInfo_ok (resp : Response)
    (hr : ∀ k vs, resp.Header.lookup k = some vs → vs ≠ []) :
    ∃ h, firstValues resp.Header = .ok h ∧
      responseInfo resp = .ok { Code := resp.StatusCode, Message := resp.Status, Headers := h } := by
  obtain ⟨h, hhd, -⟩ := firstValues_spec resp.Header hr
  refine ⟨h, hhd, ?_⟩
  simp only [responseInfo, hhd]

/-- A map given by its entries has only non-empty value lists when every entry has. -/
theorem nonempty_of_entries (m : Values)
    (h : m.entries.all (fun e => !e.2.isEmpty) = true) :
    ∀ k vs, m.lookup k = some vs → vs ≠ [] := by
  intro k vs hk hnil
  have hmem := AList.mem_lookup_iff.1 hk
  have := List.all_eq_true.1 h _ hmem
  subst hnil
  simp at this

/-- C4: when every query parameter, request header and response header has a
non-empty value list, `parseRequest` and `parseResponse` do not panic (no index
is out of range), and the snapshots `get_params` and `headers` have exactly the
names of the source map, each mapped to the first value of its list. -/
theorem parse_keeps_first_values (lib : Lib) (r : Request) (resp : Response) (s : State)
    (hq : ∀ k vs, (r.URL.Query lib).lookup k = some vs → vs ≠ [])
    (hh : ∀ k vs, r.Header.lookup k = some vs → vs ≠ [])
    (hr : ∀ k vs, resp.Header.lookup k = some vs → vs ≠ []) :
    ∃ ri ro, (parseRequest lib r s).1 = .ok (.request ri) ∧
      (parseResponse resp s).1 = .ok (.response ro) ∧
      (∀ k, k ∈ ri.GetParams ↔ k ∈ r.URL.Query lib) ∧
      (∀ k vs, (r.URL.Query lib).lookup k = some vs → ri.GetParams.lookup k = vs.head?) ∧
      (∀ k, k ∈ ri.Headers ↔ k ∈ r.Header) ∧
      (∀ k vs, r.Header.lookup k = some vs → ri.Headers.lookup k = vs.head?) ∧
      (∀ k, k ∈ ro.Headers ↔ k ∈ resp.Header) ∧
      (∀ k vs, resp.Header.lookup k = some vs → ro.Headers.lookup k = vs.head?) := by
  obtain ⟨g, hg, hgk, hgv⟩ := firstValues_spec (r.URL.Query lib) hq
  obtain ⟨h, hhd, hhk, hhv⟩ := firstValues_spec r.Header hh
  obtain ⟨h2, hrd, hrk, hrv⟩ := firstValues_spec resp.Header hr
  refine ⟨{ Method := (r.ParseForm lib).Method, Path := (r.ParseForm lib).URL.Path,
            GetParams := g, Headers := h, Cookies := cookieMap (r.Cookies lib),
            PostParams := copyValues ((r.ParseForm lib).PostForm.getD ∅) },
          { Code := resp.StatusCode, Message := resp.Status, Headers := h2 },
          ?_, ?_, hgk, hgv, hhk, hhv, hrk, hrv⟩
  · rw [parseRequest_eq]
    simp only [requestInfo, hg, hhd]
    rfl
  · rw [parseResponse_eq]
    simp only [responseInfo, hrd]
    rfl

/-- C4 at the request `GET http://example.com/?a=1&a=2` with `X-Test: v1`. -/
theorem parse_keeps_first_values_witness :
    ∃ ri ro, (parseRequest stdlib getRequest (freshState true)).1 = .ok (.request ri) ∧
      (parseResponse okResponse (freshState true)).1 = .ok (.response ro) ∧
      (∀ k, k ∈ ri.GetParams ↔ k ∈ getRequest.URL.Query stdlib) ∧
      (∀ k vs, (getRequest.URL.Query stdlib).lookup k = some vs →
        ri.GetParams.lookup k = vs.head?) ∧
      (∀ k, k ∈ ri.Headers ↔ k ∈ getRequest.Header) ∧
      (∀ k vs, getRequest.Header.lookup k = some vs → ri.Headers.lookup k = vs.head?) ∧
      (∀ k, k ∈ ro.Headers ↔ k ∈ okResponse.Header) ∧
      (∀ k vs, okResponse.Header.lookup k = some vs → ro.Headers.lookup k = vs.head?) :=
  parse_keeps_first_values stdlib getRequest okResponse (freshState true)
    (nonempty_of_entries _ (by decide))
    (nonempty_of_entries _ (by decide))
    (nonempty_of_entries _ (by decide))

/-- The example of the specification: `a=1&a=2` is persisted as `a = 1`, and
`X-Test: v1` as `X-Test = v1`. -/
theorem parseRequest_first_value_example :
    (requestInfo stdlib getRequest).toOption.map
        (fun ri => (ri.GetParams.lookup "a", ri.Headers.lookup "X-Test"))
      = some (some "1", some "v1") ∧
    (getRequest.URL.Query stdlib).lookup "a" = some ["1", "2"] := by
  decide

/-! ## Copying headers keeps every value -/

theorem get_insert_self (m : Values) (k : String) (vs : List String) :
    Values.get (m.insert k vs) k = vs := by
  simp [Values.get]

theorem get_insert_ne (m : Values) {k k0 : String} (vs : List String) (h : k ≠ k0) :
    Values.get (m.insert k0 vs) k = m.get k := by
  simp [Values.get, AList.lookup_insert_ne h]

/-- The inner loop of `copyHeaders` for one canonical name: its values are
appended, in order, to the list of that name; other names are untouched. -/
theorem addAll_spec (lib : Lib) (k0 : String) (hc : lib.canonicalMIMEHeaderKey k0 = k0)
    (vs : List String) (dst : Header) :
    (∀ k, (vs.foldl (fun d value => Header.Add lib d k0 value) dst).get k =
      if k = k0 then dst.get k ++ vs else dst.get k) ∧
    (∀ k, k ∈ vs.foldl (fun d value => Header.Add lib d k0 value) dst ↔
      k ∈ dst ∨ (k = k0 ∧ vs ≠ [])) := by
  induction vs generalizing dst with
  | nil => simp
  | cons v vs ih =>
    have hadd : Header.Add lib dst k0 v = dst.insert k0 (dst.get k0 ++ [v]) := by
      show dst.insert (lib.canonicalMIMEHeaderKey k0)
        ((dst.lookup (lib.canonicalMIMEHeaderKey k0)).getD [] ++ [v]) = _
      rw [hc]
      rfl
    obtain ⟨h1, h2⟩ := ih (Header.Add lib dst k0 v)
    refine ⟨fun k => ?_, fun k => ?_⟩
    · rw [List.foldl_cons, h1 k, hadd]
      by_cases hk : k = k0
      · subst hk
        simp [get_insert_self]
      · simp [hk, get_insert_ne]
    · rw [List.foldl_cons, h2 k, hadd, AList.mem_insert]
      by_cases hk : k = k0
      · simp [hk]
      · simp [hk]

/-- The outer loop of `copyHeaders` over entries with distinct canonical names. -/
theorem copyLoop_spec (lib : Lib) (l : List (Sigma fun _ : String => List String))
    (hnd : l.NodupKeys) (hc : ∀ e ∈ l, lib.canonicalMIMEHeaderKey e.1 = e.1) (dst : Header) :
    (∀ k, (l.foldl (fun d e => e.2.foldl (fun d value => Header.Add lib d e.1 value) d)
        dst).get k = dst.get k ++ (l.dlookup k).getD []) ∧
    (∀ k, k ∈ l.foldl (fun d e => e.2.foldl (fun d value => Header.Add lib d e.1 value) d)
        dst ↔ k ∈ dst ∨ ∃ vs, l.dlookup k = some vs ∧ vs ≠ []) := by
  induction l generalizing dst with
  | nil => simp
  | cons e rest ih =>
    obtain ⟨k0, vs⟩ := e
    have hnd2 := List.nodupKeys_cons.1 hnd
    have hk0 : lib.canonicalMIMEHeaderKey k0 = k0 := hc ⟨k0, vs⟩ (List.mem_cons_self _ _)
    obtain ⟨a1, a2⟩ := addAll_spec lib k0 hk0 vs dst
    obtain ⟨h1, h2⟩ := ih hnd2.2 (fun e he => hc e (List.mem_cons_of_mem _ he))
      (vs.foldl (fun d value => Header.Add lib d k0 value) dst)
    have hnone : rest.dlookup k0 = none := List.dlookup_eq_none.2 hnd2.1
    refine ⟨fun k => ?_, fun k => ?_⟩
    · rw [List.foldl_cons, h1 k, a1 k]
      by_cases hk : k = k0
      · subst hk
        simp [hnone, List.dlookup_cons_eq]
      · simp [hk, List.dlookup_cons_ne rest ⟨k0, vs⟩ hk]
    · rw [List.foldl_cons, h2 k, a2 k]
      by_cases hk : k = k0
      · subst hk
        simp [hnone, List.dlookup_cons_eq]
      · simp [hk, List.dlookup_cons_ne rest ⟨k0, vs⟩ hk]

/-- C5: for a source map with canonical names, `copyHeaders` appends to each
name of the target the values of the source, all of them and in order, and adds
exactly the names of the source that have a value; into an empty target it
copies every such name with exactly its list of values, and no other name. -/
theorem copyHeaders_keeps_all_values (lib : Lib) (dst src : Header)
    (hc : ∀ k, k ∈ src → lib.canonicalMIMEHeaderKey k = k) :
    (∀ k, (copyHeaders lib dst src).get k = dst.get k ++ src.get k) ∧
    (∀ k, k ∈ copyHeaders lib dst src ↔ k ∈ dst ∨ ∃ vs, src.lookup k = some vs ∧ vs ≠ []) ∧
    (∀ k vs, src.lookup k = some vs → vs ≠ [] → (copyHeaders lib ∅ src).lookup k = some vs) ∧
    (∀ k, k ∈ copyHeaders lib ∅ src ↔ ∃ vs, src.lookup k = some vs ∧ vs ≠ []) := by
  have hent : ∀ e ∈ src.entries, lib.canonicalMIMEHeaderKey e.1 = e.1 := by
    intro e he
    exact hc e.1 (AList.mem_keys.2 (List.mem_keys_of_mem he))
  have key : ∀ d : Header,
      (∀ k, (copyHeaders lib d src).get k = d.get k ++ src.get k) ∧
      (∀ k, k ∈ copyHeaders lib d src ↔ k ∈ d ∨ ∃ vs, src.lookup k = some vs ∧ vs ≠ []) :=
    fun d => copyLoop_spec lib src.entries src.nodupKeys hent d
  refine ⟨(key dst).1, (key dst).2, fun k vs hk hne => ?_, fun k => ?_⟩
  · have hget := (key ∅).1 k
    have hmem : k ∈ copyHeaders lib ∅ src := ((key ∅).2 k).2 (Or.inr ⟨vs, hk, hne⟩)
    obtain ⟨ws, hws⟩ := Option.isSome_iff_exists.1 (AList.lookup_isSome.2 hmem)
    simp [Values.get, hws, hk] at hget
    rw [hws, hget]
  · rw [(key ∅).2 k]
    simp

/-- A source map given by its keys has canonical names when every key has. -/
theorem canonical_of_keys (lib : Lib) (m : Header)
    (h : m.keys.all (fun k => decide (lib.canonicalMIMEHeaderKey k = k)) = true) :
    ∀ k, k ∈ m → lib.canonicalMIMEHeaderKey k = k := by
  intro k hk
  have := List.all_eq_true.1 h k (AList.mem_keys.1 hk)
  simpa using this

/-- C5 at origin headers with a repeated `Set-Cookie`. -/
theorem copyHeaders_keeps_all_values_witness :
    (∀ k, (copyHeaders stdlib clientHeader originHeader).get k
      = clientHeader.get k ++ originHeader.get k) ∧
    (∀ k, k ∈ copyHeaders stdlib clientHeader originHeader ↔
      k ∈ clientHeader ∨ ∃ vs, originHeader.lookup k = some vs ∧ vs ≠ []) ∧
    (∀ k vs, originHeader.lookup k = some vs → vs ≠ [] →
      (copyHeaders stdlib ∅ originHeader).lookup k = some vs) ∧
    (∀ k, k ∈ copyHeaders stdlib ∅ originHeader ↔
      ∃ vs, originHeader.lookup k = some vs ∧ vs ≠ []) :=
  copyHeaders_keeps_all_values stdlib clientHeader originHeader
    (canonical_of_keys stdlib originHeader (by decide))

/-- Both values of the repeated header reach the client, in order. -/
theorem copyHeaders_example :
    (copyHeaders stdlib ∅ originHeader).lookup "Set-Cookie" = some ["a=1", "b=2"] ∧
    (copyHeaders stdlib clientHeader originHeader).lookup "Set-Cookie"
      = some ["x=0", "a=1", "b=2"] ∧
    (copyHeaders stdlib ∅ originHeader).lookup "Content-Type" = some ["text/html"] ∧
    (copyHeaders stdlib ∅ originHeader).keys.length = 2 := by
  decide

/-! ## The persistence sink, continued -/

theorem saveRequestResponse_eq (lib : Lib) (env : Env) (req : Request) (resp : Response)
    (s : State) (a b : Text) (ha : (parseRequest lib req s).1 = .ok a)
    (hb : (parseResponse resp s).1 = .ok b) :
    saveRequestResponse lib env req resp s =
      (.returned, saveRow env a b
        (((s.emit (.call .saveRequestResponse)).emit (.call .parseRequest)).emit
          (.call .parseResponse))) := by
  rw [parseRequest_eq] at ha
  rw [parseResponse_eq] at hb
  simp only at ha hb
  unfold saveRequestResponse
  simp only [parseRequest_eq, parseResponse_eq, ha, hb]

/-- The sink adds no handler call to the trace, however it ends. -/
theorem saveRequestResponse_no_handler (lib : Lib) (env : Env) (req : Request)
    (resp : Response) (s : State) :
    ∃ evs, (saveRequestResponse lib env req resp s).2.trace = s.trace ++ evs ∧
      evs.filter Event.isHandlerCall = [] := by
  unfold saveRequestResponse
  simp only [parseRequest_eq, parseResponse_eq]
  cases requestInfo lib req with
  | error msg =>
    exact ⟨[.call .saveRequestResponse, .call .parseRequest], by simp [Except.map],
      by simp [Event.isHandlerCall]⟩
  | ok ri =>
    cases responseInfo resp with
    | error msg =>
      exact ⟨[.call .saveRequestResponse, .call .parseRequest, .call .parseResponse],
        by simp [Except.map], by simp [Event.isHandlerCall]⟩
    | ok ro =>
      simp only [Except.map]
      obtain ⟨evs, h1, h2⟩ := saveRow_no_handler env (.request ri) (.response ro)
        (((s.emit (.call .saveRequestResponse)).emit (.call .parseRequest)).emit
          (.call .parseResponse))
      refine ⟨[.call .saveRequestResponse, .call .parseRequest, .call .parseResponse] ++ evs,
        ?_, ?_⟩
      · rw [h1]; simp
      · simp [List.filter_append, h2, Event.isHandlerCall]

/-- C6: given the two serialized snapshots, `saveRequestResponse` returns
normally for every outcome of `Begin`, `Exec` and `Commit`; the committed rows
gain exactly the row of the two snapshots when all three succeed and are
unchanged otherwise; `Rollback` is called whenever `Begin` succeeded, and no
transaction call follows a failed `Begin`; the response writer is not touched. -/
theorem saveRequestResponse_transaction (lib : Lib) (env : Env) (req : Request)
    (resp : Response) (s : State) (a b : Text)
    (ha : (parseRequest lib req s).1 = .ok a) (hb : (parseResponse resp s).1 = .ok b) :
    (saveRequestResponse lib env req resp s).1 = .returned ∧
    (saveRequestResponse lib env req resp s).2.rows =
      (if env.beginOk = true ∧ env.execOk = true ∧ env.commitOk = true
       then s.rows ++ [(a, b)] else s.rows) ∧
    (saveRequestResponse lib env req resp s).2.w = s.w ∧
    ∃ evs, (saveRequestResponse lib env req resp s).2.trace = s.trace ++ evs ∧
      (env.beginOk = true → Event.dbRollback ∈ evs) ∧
      (env.beginOk = false →
        Event.dbExec ∉ evs ∧ Event.dbCommit ∉ evs ∧ Event.dbRollback ∉ evs) := by
  rw [saveRequestResponse_eq lib env req resp s a b ha hb]
  refine ⟨rfl, ?_, ?_, ?_⟩
  · rw [saveRow_rows]; simp
  · rw [saveRow_w]; simp
  · refine ⟨_, by rw [saveRow_trace]; simp only [emit_fields, List.append_assoc]; rfl, ?_, ?_⟩
    · intro h
      cases env.execOk <;> cases env.commitOk <;> simp [h]
    · intro h
      simp [h]

/-- C6 at a concrete pair of snapshots, with a commit that fails. -/
theorem saveRequestResponse_transaction_witness :
    (saveRequestResponse stdlib commitFails getRequest okResponse (freshState true)).1
      = .returned ∧
    (saveRequestResponse stdlib commitFails getRequest okResponse (freshState true)).2.rows =
      (if commitFails.beginOk = true ∧ commitFails.execOk = true ∧ commitFails.commitOk = true
       then (freshState true).rows ++ [(getSnapshot, okSnapshot)] else (freshState true).rows) ∧
    (saveRequestResponse stdlib commitFails getRequest okResponse (freshState true)).2.w
      = (freshState true).w ∧
    ∃ evs, (saveRequestResponse stdlib commitFails getRequest okResponse (freshState true)).2.trace
        = (freshState true).trace ++ evs ∧
      (commitFails.beginOk = true → Event.dbRollback ∈ evs) ∧
      (commitFails.beginOk = false →
        Event.dbExec ∉ evs ∧ Event.dbCommit ∉ evs ∧ Event.dbRollback ∉ evs) :=
  saveRequestResponse_transaction stdlib commitFails getRequest okResponse (freshState true)
    getSnapshot okSnapshot rfl rfl

/-! ## The forwarder -/

/-- The function `handleHTTP` in terms of `sentRequest`. -/
theorem handleHTTP_eq (lib : Lib) (env : Env) (r : Request) (s : State) :
    handleHTTP lib env r s =
      match env.doResult with
      | .error msg => (.exited 1, (s.emit (.call .handleHTTP)).emit (.fatal msg))
      | .ok proxyResponse =>
        match saveRequestResponse lib env (sentRequest lib r) proxyResponse
            (s.emit (.call .handleHTTP)) with
        | (.returned, s) =>
          match WriteHeader proxyResponse.StatusCode
              ((s.emit (.call .copyHeaders)).setHeader
                (copyHeaders lib s.w.header proxyResponse.Header)) with
          | (.returned, s) =>
            (.returned, (copyToWriter proxyResponse.Body s).emit .closeResponseBody)
          | (ending, s) => (ending, s.emit .closeResponseBody)
        | (ending, s) => (ending, s.emit .closeResponseBody) := by
  rfl

/-- When `httpClient.Do` fails, `handleHTTP` ends the process with exit code 1
and writes nothing to the client. -/
theorem handleHTTP_do_error (lib : Lib) (env : Env) (r : Request) (s : State) (msg : String)
    (hdo : env.doResult = .error msg) :
    (handleHTTP lib env r s).1 = .exited 1 ∧ (handleHTTP lib env r s).2.w = s.w ∧
    (handleHTTP lib env r s).2.trace = s.trace ++ [.call .handleHTTP, .fatal msg] := by
  rw [handleHTTP_eq, hdo]
  simp

/-- C1 (code at the failing input): when `httpClient.Do` returns an error,
`handleHTTP` does not return: it calls `log.Fatalf`, the process exits with
code 1, and no status, 5xx or other, has been written to the client. -/
theorem handleHTTP_forwarding_failure_exits :
    (handleHTTP stdlib originDown getRequest (freshState true)).1 = .exited 1 ∧
    (handleHTTP stdlib originDown getRequest (freshState true)).2.w.status = none ∧
    (handleHTTP stdlib originDown getRequest (freshState true)).2.trace =
      [.call .handleHTTP, .fatal "dial tcp: lookup example.com: no such host"] := by
  have h := handleHTTP_do_error stdlib originDown getRequest (freshState true) _ rfl
  refine ⟨h.1, ?_, ?_⟩
  · rw [h.2.1]; rfl
  · rw [h.2.2]; rfl

/-- The forwarder records exactly one handler call, its own, however it ends. -/
theorem handleHTTP_frame (lib : Lib) (env : Env) (r : Request) (s : State) :
    ∃ evs, (handleHTTP lib env r s).2.trace = s.trace ++ evs ∧
      evs.filter Event.isHandlerCall = [.call .handleHTTP] := by
  rw [handleHTTP_eq]
  cases env.doResult with
  | error msg => exact ⟨[.call .handleHTTP, .fatal msg], by simp, by simp [Event.isHandlerCall]⟩
  | ok resp =>
    obtain ⟨evs, h1, h2⟩ := saveRequestResponse_no_handler lib env (sentRequest lib r) resp
      (s.emit (.call .handleHTTP))
    simp only
    rcases hsave : saveRequestResponse lib env (sentRequest lib r) resp
      (s.emit (.call .handleHTTP)) with ⟨ending, s1⟩
    rw [hsave] at h1
    simp only [emit_fields] at h1
    cases ending with
    | returned =>
      have hw := (WriteHeader_fields resp.StatusCode
        ((s1.emit (.call .copyHeaders)).setHeader (copyHeaders lib s1.w.header resp.Header))).1
      rcases hwh : WriteHeader resp.StatusCode
        ((s1.emit (.call .copyHeaders)).setHeader (copyHeaders lib s1.w.header resp.Header))
        with ⟨ending2, s2⟩
      rw [hwh] at hw
      simp only [emit_fields, setHeader_fields] at hw
      refine ⟨[.call .handleHTTP] ++ evs ++
        [.call .copyHeaders, .writeHeader resp.StatusCode, .closeResponseBody], ?_, ?_⟩
      · cases ending2 <;> simp [hwh, hw, h1]
      · simp [List.filter_append, h2, Event.isHandlerCall]
    | panicked msg =>
      refine ⟨[.call .handleHTTP] ++ evs ++ [.closeResponseBody], ?_, ?_⟩
      · simp [h1]
      · simp [List.filter_append, h2, Event.isHandlerCall]
    | exited code =>
      refine ⟨[.call .handleHTTP] ++ evs ++ [.closeResponseBody], ?_, ?_⟩
      · simp [h1]
      · simp [List.filter_append, h2, Event.isHandlerCall]

/-- C9: `ServeHTTP` is `handleHTTPS` when the method is exactly `CONNECT` and
`handleHTTP` for every other method, with no effect of its own: the result is
that of the chosen handler on the same state, and the calls it adds to the
trace contain exactly one handler call, that of the chosen handler. -/
theorem ServeHTTP_dispatch (lib : Lib) (env : Env) (r : Request) (s : State) :
    ServeHTTP lib env r s =
      (if r.Method = "CONNECT" then handleHTTPS env r s else handleHTTP lib env r s) ∧
    ∃ evs, (ServeHTTP lib env r s).2.trace = s.trace ++ evs ∧
      evs.filter Event.isHandlerCall =
        [if r.Method = "CONNECT" then .call .handleHTTPS else .call .handleHTTP] := by
  refine ⟨rfl, ?_⟩
  unfold ServeHTTP
  by_cases hm : r.Method = "CONNECT"
  · rw [if_pos hm, if_pos hm]
    obtain ⟨_, _, evs, h1, _, h2⟩ := handleHTTPS_frame env r s
    exact ⟨evs, h1, h2⟩
  · rw [if_neg hm, if_neg hm]
    exact handleHTTP_frame lib env r s

theorem ParseForm_Method_URL (lib : Lib) (r : Request) :
    (r.ParseForm lib).Method = r.Method ∧ (r.ParseForm lib).URL = r.URL := by
  unfold Request.ParseForm
  split
  · exact ⟨rfl, rfl⟩
  · split <;> exact ⟨rfl, rfl⟩

/-- A closed body yields no form values. -/
theorem parsePostForm_closed (lib : Lib) (r : Request) (h : r.Body.closed = true) :
    (parsePostForm lib r).1 = none := by
  unfold parsePostForm
  simp only [Body.readAll, h, if_true]
  split <;> split <;> rfl

/-- After the request has been sent its body is closed, so that `ParseForm`
finds no form: `PostForm` is the empty map. -/
theorem sentRequest_PostForm (lib : Lib) (r : Request) (h : r.PostForm = none) :
    ((sentRequest lib r).ParseForm lib).PostForm = some ∅ := by
  unfold Request.ParseForm
  simp only [sentRequest, h]
  split
  · have hnone := parsePostForm_closed lib
      { Method := r.Method, URL := r.URL, Header := Header.Del lib r.Header "Proxy-Connection",
        Body := r.Body.sendAndClose, Host := r.Host, RequestURI := "", PostForm := none } rfl
    rcases hp : parsePostForm lib
      { Method := r.Method, URL := r.URL, Header := Header.Del lib r.Header "Proxy-Connection",
        Body := r.Body.sendAndClose, Host := r.Host, RequestURI := "", PostForm := none }
      with ⟨vs, b⟩
    rw [hp] at hnone
    simp only at hnone
    subst hnone
    rfl
  · rfl

theorem copyToWriter_status (data : String) (s : State) (c : Int)
    (h : s.w.status = some c) : (copyToWriter data s).w.status = some c := by
  unfold copyToWriter
  split
  · exact h
  · simp [h]

/-- What `handleHTTP` does once `saveRequestResponse` has returned in the state
`s1`: the rows stay those of `s1`, the trace gains the calls of `copyHeaders`
and `WriteHeader` and the deferred close, the handler returns when the code
is in 100..999, and a final status code reaches a fresh writer. -/
theorem handleHTTP_after_save (lib : Lib) (env : Env) (r : Request) (s s1 : State)
    (resp : Response) (hdo : env.doResult = .ok resp)
    (hsave : saveRequestResponse lib env (sentRequest lib r) resp
      (s.emit (.call .handleHTTP)) = (.returned, s1)) :
    (handleHTTP lib env r s).2.rows = s1.rows ∧
    (handleHTTP lib env r s).2.trace = s1.trace ++
      [.call .copyHeaders, .writeHeader resp.StatusCode, .closeResponseBody] ∧
    (100 ≤ resp.StatusCode → resp.StatusCode ≤ 999 →
      (handleHTTP lib env r s).1 = .returned) ∧
    (s1.w.status = none → s1.w.hijacked = false →
      (resp.StatusCode = 101 ∨ (200 ≤ resp.StatusCode ∧ resp.StatusCode ≤ 999)) →
      (handleHTTP lib env r s).2.w.status = some resp.StatusCode) := by
  rw [handleHTTP_eq, hdo]
  simp only [hsave]
  have hf := WriteHeader_fields resp.StatusCode
    ((s1.emit (.call .copyHeaders)).setHeader (copyHeaders lib s1.w.header resp.Header))
  have hret := WriteHeader_returned resp.StatusCode
    ((s1.emit (.call .copyHeaders)).setHeader (copyHeaders lib s1.w.header resp.Header))
  have hfin := WriteHeader_final resp.StatusCode
    ((s1.emit (.call .copyHeaders)).setHeader (copyHeaders lib s1.w.header resp.Header))
  simp only [emit_fields, setHeader_fields] at hf
  refine ⟨?_, ?_, ?_, ?_⟩
  · rcases hwh : WriteHeader resp.StatusCode
      ((s1.emit (.call .copyHeaders)).setHeader (copyHeaders lib s1.w.header resp.Header))
      with ⟨ending, s2⟩
    rw [hwh] at hf
    simp only at hf
    cases ending <;> simp [hf.2.1]
  · rcases hwh : WriteHeader resp.StatusCode
      ((s1.emit (.call .copyHeaders)).setHeader (copyHeaders lib s1.w.header resp.Header))
      with ⟨ending, s2⟩
    rw [hwh] at hf
    simp only at hf
    cases ending <;> simp [hf.1]
  · intro h1 h2
    have h := hret h1 h2
    rcases hwh : WriteHeader resp.StatusCode
      ((s1.emit (.call .copyHeaders)).setHeader (copyHeaders lib s1.w.header resp.Header))
      with ⟨ending, s2⟩
    rw [hwh] at h
    simp only at h
    subst h
    simp [hwh]
  · intro hs hj hcode
    simp only [hfin hcode, emit_fields]
    apply copyToWriter_status
    rw [fixStatus_status]
    simp [hs, hj]

/-- C8 (amended): for a request that receives the origin response `resp`, with
query parameters, request headers and response headers that map each name to
a non-empty list of values, and storage operations that succeed, `handleHTTP`
adds exactly one row to the committed rows; the request snapshot of the row
has the method and the URL path of the request, the response snapshot has the
status code of `resp`, and that code is the one of the single `WriteHeader`
call.  When the code is in 100..999 the handler returns, and when it is a
final status code (101 or 200..999) and nothing has been written on the
writer before, it is the status the client receives. -/
theorem handleHTTP_writes_one_row (lib : Lib) (env : Env) (r : Request) (s : State)
    (resp : Response) (hdo : env.doResult = .ok resp)
    (hb : env.beginOk = true) (he : env.execOk = true) (hc : env.commitOk = true)
    (hq : ∀ k vs, (r.URL.Query lib).lookup k = some vs → vs ≠ [])
    (hh : ∀ k vs, r.Header.lookup k = some vs → vs ≠ [])
    (hr : ∀ k vs, resp.Header.lookup k = some vs → vs ≠ []) :
    ∃ ri ro,
      (handleHTTP lib env r s).2.rows = s.rows ++ [(.request ri, .response ro)] ∧
      ri.Method = r.Method ∧ ri.Path = r.URL.Path ∧ ro.Code = resp.StatusCode ∧
      (∃ evs, (handleHTTP lib env r s).2.trace = s.trace ++ evs ∧
        evs.filterMap Event.writeHeaderCode = [ro.Code]) ∧
      (100 ≤ ro.Code → ro.Code ≤ 999 → (handleHTTP lib env r s).1 = .returned) ∧
      (s.w.status = none → s.w.hijacked = false →
        (ro.Code = 101 ∨ (200 ≤ ro.Code ∧ ro.Code ≤ 999)) →
        (handleHTTP lib env r s).2.w.status = some ro.Code) := by
  have hh2 : ∀ k vs, (sentRequest lib r).Header.lookup k = some vs → vs ≠ [] := by
    intro k vs hk
    by_cases hkey : k = lib.canonicalMIMEHeaderKey "Proxy-Connection"
    · subst hkey
      simp [sentRequest, Header.Del] at hk
    · have : (sentRequest lib r).Header.lookup k = r.Header.lookup k := by
        simp only [sentRequest, Header.Del]
        exact AList.lookup_erase_ne hkey
      rw [this] at hk
      exact hh k vs hk
  obtain ⟨g, h, -, -, hri⟩ := requestInfo_ok lib (sentRequest lib r) hq hh2
  obtain ⟨h2, -, hro⟩ := responseInfo_ok resp hr
  have hsave := saveRequestResponse_eq lib env (sentRequest lib r) resp
    (s.emit (.call .handleHTTP)) _ _
    (by rw [parseRequest_eq, hri]; rfl) (by rw [parseResponse_eq, hro]; rfl)
  obtain ⟨hrows, htrace, hreturn, hstatus⟩ := handleHTTP_after_save lib env r s _ resp hdo hsave
  refine ⟨{ Method := ((sentRequest lib r).ParseForm lib).Method,
            Path := ((sentRequest lib r).ParseForm lib).URL.Path,
            GetParams := g, Headers := h, Cookies := cookieMap ((sentRequest lib r).Cookies lib),
            PostParams := copyValues (((sentRequest lib r).ParseForm lib).PostForm.getD ∅) },
          { Code := resp.StatusCode, Message := resp.Status, Headers := h2 },
          ?_, (ParseForm_Method_URL lib (sentRequest lib r)).1, ?_, rfl, ?_, hreturn, ?_⟩
  · rw [hrows]
    simp [saveRow_rows, hb, he, hc]
  · rw [(ParseForm_Method_URL lib (sentRequest lib r)).2]
    rfl
  · refine ⟨[.call .handleHTTP, .call .saveRequestResponse, .call .parseRequest,
      .call .parseResponse, .dbBegin, .dbExec, .dbCommit, .dbRollback, .call .copyHeaders,
      .writeHeader resp.StatusCode, .closeResponseBody], ?_, ?_⟩
    · rw [htrace]
      simp [saveRow_trace, hb, he, hc]
    · simp [Event.writeHeaderCode]
  · intro hs hj hcode
    apply hstatus _ _ hcode
    · simp [saveRow_w, hs]
    · simp [saveRow_w, hj]

/-- C8 (amended) at `GET http://example.com/?a=1&a=2` answered by `200 OK`. -/
theorem handleHTTP_writes_one_row_witness :
    ∃ ri ro,
      (handleHTTP stdlib (allOk okResponse) getRequest (freshState true)).2.rows
        = (freshState true).rows ++ [(.request ri, .response ro)] ∧
      ri.Method = getRequest.Method ∧ ri.Path = getRequest.URL.Path ∧
      ro.Code = okResponse.StatusCode ∧
      (∃ evs, (handleHTTP stdlib (allOk okResponse) getRequest (freshState true)).2.trace
          = (freshState true).trace ++ evs ∧
        evs.filterMap Event.writeHeaderCode = [ro.Code]) ∧
      (100 ≤ ro.Code → ro.Code ≤ 999 →
        (handleHTTP stdlib (allOk okResponse) getRequest (freshState true)).1 = .returned) ∧
      ((freshState true).w.status = none → (freshState true).w.hijacked = false →
        (ro.Code = 101 ∨ (200 ≤ ro.Code ∧ ro.Code ≤ 999)) →
        (handleHTTP stdlib (allOk okResponse) getRequest (freshState true)).2.w.status
          = some ro.Code) :=
  handleHTTP_writes_one_row stdlib (allOk okResponse) getRequest (freshState true) okResponse
    rfl rfl rfl rfl
    (nonempty_of_entries _ (by decide))
    (nonempty_of_entries _ (by decide))
    (nonempty_of_entries _ (by decide))

/-- C8 fails as stated, at two inputs with an origin response and a storage
that succeeds.  At a request whose header map holds a name with no value,
`parseRequest` panics on `values[0]` and no row is written.  At the origin
status `099` the row is written with the code 99, but `WriteHeader(99)`
panics: `handleHTTP` does not return and the client receives neither a status
nor a body. -/
theorem handleHTTP_one_row_counterexample :
    ((handleHTTP stdlib (allOk okResponse) emptyValueRequest (freshState true)).1
        = .panicked indexOutOfRange ∧
      (handleHTTP stdlib (allOk okResponse) emptyValueRequest (freshState true)).2.rows = [] ∧
      ¬ ∃ row, (handleHTTP stdlib (allOk okResponse) emptyValueRequest (freshState true)).2.rows
        = (freshState true).rows ++ [row]) ∧
    ((handleHTTP stdlib (allOk oddResponse) getRequest (freshState true)).1
        = .panicked "invalid WriteHeader code 99" ∧
      (handleHTTP stdlib (allOk oddResponse) getRequest (freshState true)).2.rows
        = [(getSnapshot, oddSnapshot)] ∧
      (handleHTTP stdlib (allOk oddResponse) getRequest (freshState true)).2.w.status = none ∧
      (handleHTTP stdlib (allOk oddResponse) getRequest (freshState true)).2.w.body = "") := by
  have hrows :
      (handleHTTP stdlib (allOk okResponse) emptyValueRequest (freshState true)).2.rows = [] :=
    rfl
  refine ⟨⟨rfl, hrows, ?_⟩, rfl, rfl, rfl, rfl⟩
  rintro ⟨row, h⟩
  rw [hrows] at h
  simp [freshState] at h

/-- The row written for `getRequest` answered by `okResponse`. -/
theorem handleHTTP_row_example :
    (handleHTTP stdlib (allOk okResponse) getRequest (freshState true)).2.rows
      = [(getSnapshot, okSnapshot)] ∧
    (handleHTTP stdlib (allOk okResponse) getRequest (freshState true)).2.w.status
      = some 200 := by
  exact ⟨rfl, rfl⟩

/-- Whatever the body of the request held, the snapshot taken after the
request has been sent has no form field. -/
theorem sentRequest_PostParams (lib : Lib) (r : Request) (ri : RequestInfo)
    (h : r.PostForm = none) (hri : requestInfo lib (sentRequest lib r) = .ok ri) :
    ri.PostParams = ∅ := by
  unfold requestInfo at hri
  split at hri
  · cases hri
  · split at hri
    · cases hri
    · simp only [Except.ok.injEq] at hri
      subst hri
      simp only [sentRequest_PostForm lib r h]
      rfl

/-- C3 (code at the failing input): for the form-encoded `POST` with body
`foo=bar&foo=baz`, the row `handleHTTP` stores has an empty `post_params`: the
body has been sent and closed by `httpClient.Do` before `parseRequest` calls
`ParseForm`.  Parsed before the request is sent, the same request gives
`foo = [bar, baz]`. -/
theorem handleHTTP_loses_post_params :
    (handleHTTP stdlib (allOk okResponse) postRequest (freshState true)).2.rows
      = [(postSnapshot, okSnapshot)] ∧
    (∃ ri, postSnapshot = .request ri ∧ ri.PostParams.lookup "foo" = none ∧
      ri.PostParams.keys = []) ∧
    (requestInfo stdlib postRequest).toOption.map (fun ri => ri.PostParams.lookup "foo")
      = some (some ["bar", "baz"]) := by
  refine ⟨rfl, ⟨_, rfl, by decide, by decide⟩, by decide⟩

/-! ## The relay pumps close both sockets -/

theorem close_isSome (s : State) (c : ConnId) :
    (s.close c).connDest.isSome = s.connDest.isSome := by
  cases c <;> simp [State.close]

theorem write_isSome (s : State) (data : String) (c : ConnId) :
    (s.write data c).connDest.isSome = s.connDest.isSome := by
  cases c <;> simp [State.write]

theorem close_bothClosed (s : State) (c : ConnId) (h : s.bothClosed) :
    (s.close c).bothClosed := by
  obtain ⟨h1, d, h2, h3⟩ := h
  cases c
  · exact ⟨rfl, d, h2, h3⟩
  · exact ⟨h1, { d with closed := true }, by simp [State.close, h2], rfl⟩

theorem write_bothClosed (s : State) (data : String) (c : ConnId) (h : s.bothClosed) :
    (s.write data c).bothClosed := by
  obtain ⟨h1, d, h2, h3⟩ := h
  cases c
  · exact ⟨h1, d, h2, h3⟩
  · exact ⟨h1, { d with received := d.received ++ data }, by simp [State.write, h2], h3⟩

theorem close_two_bothClosed (s : State) (a b : ConnId) (hab : a ≠ b)
    (h : s.connDest.isSome = true) : ((s.close a).close b).bothClosed := by
  obtain ⟨d, hd⟩ := Option.isSome_iff_exists.1 h
  cases a <;> cases b
  · exact absurd rfl hab
  · exact ⟨rfl, { d with closed := true }, by simp [State.close, hd], rfl⟩
  · exact ⟨rfl, { d with closed := true }, by simp [State.close, hd], rfl⟩
  · exact absurd rfl hab

theorem inv_update (s s2 : State) (i : Nat) (p p2 : Pump) (hp : p ∈ s.pumps)
    (hinv : TunnelInv s) (hsome : s2.connDest.isSome = s.connDest.isSome)
    (hdst : p2.dst = p.dst) (hsrc : p2.src = p.src)
    (hcl : s.bothClosed → s2.bothClosed)
    (hdone : p2.done = true → p.done = true ∨ s2.bothClosed) :
    TunnelInv { s2 with pumps := s.pumps.set i p2 } := by
  obtain ⟨h1, h2, h3⟩ := hinv
  refine ⟨hsome.trans h1, fun q hq => ?_, fun ⟨q, hq, hqd⟩ => ?_⟩
  · rcases List.mem_or_eq_of_mem_set hq with h | h
    · exact h2 q h
    · rw [h, hdst, hsrc]
      exact h2 p hp
  · have hgoal : s2.bothClosed := by
      rcases List.mem_or_eq_of_mem_set hq with h | h
      · exact hcl (h3 ⟨q, h, hqd⟩)
      · rw [h] at hqd
        rcases hdone hqd with h4 | h4
        · exact hcl (h3 ⟨p, hp, h4⟩)
        · exact h4
    exact hgoal

theorem close_pumps (s : State) (c : ConnId) : (s.close c).pumps = s.pumps := by
  cases c <;> rfl

theorem write_pumps (s : State) (data : String) (c : ConnId) :
    (s.write data c).pumps = s.pumps := by
  cases c <;> rfl

theorem exchangeData_pumps (p : Pump) (step : CopyStep) (s : State) :
    (exchangeData p step s).2.pumps = s.pumps := by
  unfold exchangeData exchangeDataEnd
  split
  · rfl
  · split
    · simp only [close_pumps]
    · split
      · simp only [close_pumps]
      · exact write_pumps s _ _

/-- A step of a pump keeps the invariant of the tunnel. -/
theorem exchangeData_inv (s : State) (p : Pump) (i : Nat) (step : CopyStep)
    (hp : s.pumps.get? i = some p) (hinv : TunnelInv s) :
    TunnelInv { (exchangeData p step s).2 with
      pumps := s.pumps.set i (exchangeData p step s).1 } := by
  have hmem : p ∈ s.pumps := List.get?_mem hp
  have hpne := hinv.2.1 p hmem
  have hend : TunnelInv { (exchangeDataEnd p s).2 with
      pumps := s.pumps.set i (exchangeDataEnd p s).1 } := by
    have hboth : ((s.close p.dst).close p.src).bothClosed :=
      close_two_bothClosed s p.dst p.src hpne hinv.1
    exact inv_update s _ i p _ hmem hinv
      (by simp only [exchangeDataEnd, close_isSome]) rfl rfl (fun _ => hboth)
      (fun _ => Or.inr hboth)
  unfold exchangeData
  split
  · exact inv_update s s i p p hmem hinv rfl rfl rfl (fun h => h) (fun h => Or.inl h)
  · split
    · exact hend
    · split
      · exact hend
      · exact inv_update s _ i p p hmem hinv (write_isSome s _ _) rfl rfl
          (write_bothClosed s _ _) (fun h => Or.inl h)

theorem stepPump_inv (i : Nat) (step : CopyStep) (s : State) (hinv : TunnelInv s) :
    TunnelInv (stepPump i step s) := by
  unfold stepPump
  cases hp : s.pumps.get? i with
  | none => exact hinv
  | some p =>
    have h := exchangeData_inv s p i step hp hinv
    simp only [exchangeData_pumps]
    exact h

theorem runPumps_inv (schedule : List (Nat × CopyStep)) (s : State) (hinv : TunnelInv s) :
    TunnelInv (runPumps schedule s) := by
  induction schedule generalizing s with
  | nil => exact hinv
  | cons hd rest ih =>
    obtain ⟨i, step⟩ := hd
    unfold runPumps
    exact ih _ (stepPump_inv i step s hinv)

/-- The part of the tunnel that does release its sockets: in a tunnel that
`handleHTTPS` has set up (dial and hijack succeeded), along every schedule of
the two pumps, as soon as one pump is done both the client socket and the
dialled socket are closed. -/
theorem tunnel_pumps_close_both (env : Env) (r : Request) (s : State)
    (schedule : List (Nat × CopyStep)) (hd : env.dialOk = true)
    (hh : s.w.isHijacker = true) (hk : env.hijackOk = true) (hp : s.pumps = []) :
    (∃ p ∈ (runPumps schedule (handleHTTPS env r s).2).pumps, p.done = true) →
      (runPumps schedule (handleHTTPS env r s).2).bothClosed := by
  have hinv : TunnelInv (handleHTTPS env r s).2 := by
    unfold handleHTTPS connectHandshake TunnelInv
    simp [hd, hh, hk, hp]
  exact (runPumps_inv schedule _ hinv).2.2

/-- A tunnel in which the client closes first: both sockets end closed. -/
theorem tunnel_example :
    (runPumps [(0, .chunk "hello"), (1, .chunk "world"), (1, .stop), (0, .chunk "late")]
      (handleHTTPS (allOk okResponse) connectRequest (freshState true)).2).connSrc
      = { closed := true, received := "world" } ∧
    (runPumps [(0, .chunk "hello"), (1, .chunk "world"), (1, .stop), (0, .chunk "late")]
      (handleHTTPS (allOk okResponse) connectRequest (freshState true)).2).connDest
      = some { closed := true, received := "hello" } ∧
    (runPumps [(0, .chunk "hello"), (1, .chunk "world"), (1, .stop), (0, .chunk "late")]
      (handleHTTPS (allOk okResponse) connectRequest (freshState true)).2).pumps.map Pump.done
      = [true, true] := by
  decide

end Proxy
